import Mathlib

/-!
Verification development for the vcrm repository (`src/main_cli.py`).

The program fetches Visual C++ redistributable installers, extracts their
payload cabinet files with external tools (7-Zip for legacy self-extracting
installers, WiX `dark.exe` for modern burn bundles, `expand.exe` for cabinet
expansion), and assembles the payload DLLs into per-version output
directories.

This file gives a shallow embedding of the pipeline.  Filesystem state is
modelled explicitly (`FS`), external effects (network fetches, tool exit
statuses, the files a tool produces) are supplied by a deterministic
environment (`Env`), and each Python function of `VCRedistManager` is
translated into a Lean function of the same name.  Conventions of the model:

* file names and paths are `String`s; file contents are abstract (`Nat`);
* a temporary working area created for an installer is identified by the
  installer it was extracted from: the environment maps the installer to the
  contents the external tool deposits there;
* `subprocess.run(..., check=True)` is modelled by a `Bool` in the
  environment (exit status 0 or not); each spawned process counts one
  `toolRuns` in the trace;
* a failed network fetch leaves no destination file (partial downloads from
  interrupted transfers are not modelled);
* Python exceptions are `Except.error` values; the `try`/`except` at the
  per-runtime boundary (src lines 204-220) catches errors of the extraction
  stage, while errors raised before it (version parsing, the installer
  download at line 197) propagate out of `process_runtime`;
* only the print statements relevant to skip/error reporting are modelled in
  the trace; other informational prints are elided.
-/

/-! ## Character and string helpers

The Python code uses `str.split`, `int(...)`, `str.lower`, `pathlib.Path.name`,
`pathlib.Path.stem`, `str.replace` and glob suffix matching.  These are
re-implemented here over `List Char` by structural recursion so that every
definition evaluates inside the kernel.
-/

/-- Characters before the first `'.'` — `version.split('.')[0]` (src line 183). -/
def takeUntilDot : List Char → List Char
  | [] => []
  | '.' :: _ => []
  | c :: rest => c :: takeUntilDot rest

/-- Numeric value of a decimal digit character, `none` otherwise. -/
def digitVal (c : Char) : Option Nat :=
  if '0' ≤ c ∧ c ≤ '9' then some (c.toNat - '0'.toNat) else none

/-- Accumulating decimal parser over a digit list. -/
def parseNatAux : List Char → Nat → Option Nat
  | [], acc => some acc
  | c :: rest, acc =>
    match digitVal c with
    | none => none
    | some d => parseNatAux rest (acc * 10 + d)

/-- Parse a non-empty all-digit character list as a natural number.
Models Python `int(...)` restricted to the spec's data-model invariant that
the leading version segment is a parseable non-negative integer (§3). -/
def parseNatChars : List Char → Option Nat
  | [] => none
  | c :: rest => parseNatAux (c :: rest) 0

/-- `int(version.split('.')[0])` (src line 183): the major generation of a
version string, `none` when Python's `int` would raise. -/
def majorOf (v : String) : Option Nat :=
  parseNatChars (takeUntilDot v.data)

/-- ASCII lower-casing of one character (`str.lower`; the version strings and
URL basenames in scope are ASCII). -/
def lowerChar (c : Char) : Char :=
  if 'A' ≤ c ∧ c ≤ 'Z' then Char.ofNat (c.toNat + 32) else c

/-- `str.lower` (src lines 188, 196). -/
def lowerStr (s : String) : String :=
  String.mk (s.data.map lowerChar)

/-- `b` is a suffix of `a` (glob patterns `*.cab`, `*_amd64`, `*.dll_amd64`;
`pathlib` fnmatch lets `*` match any — possibly empty — sequence). -/
def endsWithS (a b : String) : Bool :=
  b.data.reverse.isPrefixOf a.data.reverse

/-- Characters after the last `'/'` (second argument is a reversed
accumulator).  Models `pathlib.Path(url).name` (src line 196). -/
def lastComponent : List Char → List Char → List Char
  | acc, [] => acc.reverse
  | _, '/' :: rest => lastComponent [] rest
  | acc, c :: rest => lastComponent (c :: acc) rest

/-- `Path(s).name`: the final path component. -/
def pathName (s : String) : String :=
  String.mk (lastComponent [] s.data)

/-- Reversed input without its leading-in-reverse extension: scanning the
reversed name, drop everything up to and including the first `'.'`, provided
at least one character remains after that dot (so the dot is not the first
character of the original name). -/
def stemRevCore : List Char → Option (List Char)
  | [] => none
  | '.' :: rest => if rest.isEmpty then none else some rest
  | _ :: rest => stemRevCore rest

/-- `pathlib.PurePath.stem` (src line 175): the file name minus its suffix,
where a suffix exists only when the last `'.'` is neither the first nor the
last character of the name. -/
def pyStemChars (cs : List Char) : List Char :=
  match cs.reverse with
  | [] => cs
  | c :: _ =>
    if c = '.' then cs
    else
      match stemRevCore cs.reverse with
      | none => cs
      | some revStem => revStem.reverse

/-- `str.replace('_amd64', '')` (src line 175): remove every (left-to-right,
non-overlapping) occurrence of `_amd64`. -/
def replaceAmd64 : List Char → List Char
  | [] => []
  | '_' :: 'a' :: 'm' :: 'd' :: '6' :: '4' :: rest => replaceAmd64 rest
  | c :: rest => c :: replaceAmd64 rest

/-! ## Data model -/

/-- A file: a name and abstract contents. -/
structure File where
  name : String
  content : Nat
deriving DecidableEq

/-- Directory contents: the files in one directory (flat, as produced by
`expand.exe` and consumed by `cleanup_dlls`). -/
abbrev Dir := List File

/-- A runtime descriptor from `vcredists.json`: `{version, url}` (spec §3
RuntimeDescriptor). -/
structure Runtime where
  version : String
  url : String
deriving DecidableEq

/-- The command-line arguments `process_runtime`/`fetch_all` consult. -/
structure Args where
  silent : Bool
  verbose : Bool
  noCleanup : Bool
  version : Option String
deriving DecidableEq

/-- Deterministic environment of external effects. -/
structure Env where
  /-- whether the `a`-th fetch attempt (a = 0, 1, 2) of this URI succeeds
  (src lines 52-77: up to `max_retries = 3` attempts). -/
  fetchAttemptOk : String → Nat → Bool
  /-- whether running `7zr.exe x 7z-extra.7z` exits 0 (src line 94). -/
  sevenZrUnpackOk : Bool
  /-- whether `zipfile.extractall` on the WiX archive succeeds (src line 112). -/
  wixZipOk : Bool
  /-- whether `7za.exe x -o... installer -i!*.cab` exits 0 (src line 144). -/
  sevenZaOk : String → Bool
  /-- the file names 7-Zip deposits in the fresh working area for this
  installer (src line 150 checks the area, line 208 globs `*.cab` in it). -/
  legacyProduced : String → List String
  /-- whether `dark.exe -nologo -x ... installer` exits 0 (src line 126). -/
  darkOk : String → Bool
  /-- names of the children of `AttachedContainer/packages` in the working
  area `dark.exe` produces for this installer (src lines 157-158). -/
  bundlePackages : String → List String
  /-- whether `expand.exe -F:* cab dest` exits 0 (src line 166). -/
  expandOk : String → Bool
  /-- the files `expand.exe` writes into the destination for this cabinet. -/
  cabFiles : String → List File

/-- Filesystem state the pipeline reads and writes: the per-version output
directories under the base dir, the download cache (`downloads/`), and the
provisioned tool files under `core/`. -/
structure FS where
  outputDirs : List (String × Dir)
  downloads : List String
  sevenZr : Bool
  sevenZExtra : Bool
  sevenZa : Bool
  darkExe : Bool
deriving DecidableEq

/-- Observable per-call effects: modelled print output, network fetches
actually performed (URIs), and external processes spawned. -/
structure Trace where
  messages : List String
  fetches : List String
  toolRuns : Nat
deriving DecidableEq

def Trace.nil : Trace := ⟨[], [], 0⟩

def Trace.app (a b : Trace) : Trace :=
  ⟨a.messages ++ b.messages, a.fetches ++ b.fetches, a.toolRuns + b.toolRuns⟩

/-- Terminal state of the per-runtime pipeline (spec §4.7). -/
inductive Outcome where
  | skippedOld
  | skippedAlready
  | skippedUnsupported
  | done (expanded : Nat)
  | failed (msg : String)
deriving DecidableEq

instance {ε α : Type} [DecidableEq ε] [DecidableEq α] : DecidableEq (Except ε α) :=
  fun x y =>
    match x, y with
    | Except.ok a, Except.ok b => decidable_of_iff (a = b) (by simp)
    | Except.error a, Except.error b => decidable_of_iff (a = b) (by simp)
    | Except.ok _, Except.error _ => isFalse (fun hc => Except.noConfusion hc)
    | Except.error _, Except.ok _ => isFalse (fun hc => Except.noConfusion hc)

/-! ## Association-list operations on the output directories -/

def dirLookup : List (String × Dir) → String → Option Dir
  | [], _ => none
  | (k, d) :: rest, key => if k = key then some d else dirLookup rest key

/-- `output_dir.mkdir(exist_ok=True)` (src line 194): add an empty directory
if absent, keep the existing one otherwise. -/
def dirEnsure : List (String × Dir) → String → List (String × Dir)
  | [], key => [(key, [])]
  | (k, d) :: rest, key =>
    if k = key then (k, d) :: rest else (k, d) :: dirEnsure rest key

/-- Overwrite the contents of an existing directory entry. -/
def dirSet : List (String × Dir) → String → Dir → List (String × Dir)
  | [], _, _ => []
  | (k, d) :: rest, key, v =>
    if k = key then (key, v) :: rest else (k, d) :: dirSet rest key v

/-- `output_dir.exists() and any(output_dir.iterdir())` (src line 189). -/
def dirPopulated (ds : List (String × Dir)) (key : String) : Bool :=
  match dirLookup ds key with
  | some d => !d.isEmpty
  | none => false

/-- Write one file into a directory; an existing file of the same name is
overwritten (`expand.exe` semantics: last write wins). -/
def putFile (d : Dir) (f : File) : Dir :=
  if d.any (fun h => h.name == f.name) then
    d.map (fun h => if h.name == f.name then f else h)
  else d ++ [f]

def putFiles (d : Dir) (fl : List File) : Dir := fl.foldl putFile d

/-! ## Derived names -/

/-- `f'vcruntime_{version}'.lower()` (src line 188). -/
def outDirName (version : String) : String :=
  lowerStr ("vcruntime_" ++ version)

/-- `f"{version}_{Path(runtime['url']).name}".lower()` (src line 196): the
name of the installer in the download cache. -/
def installerName (rt : Runtime) : String :=
  lowerStr (rt.version ++ "_" ++ pathName rt.url)

/-- URL of `7zr.exe` from `tools.json` (src line 86); the value is opaque. -/
def url7zr : String := "tools.7zip.7zr"

/-- URL of `7z-extra.7z` from `tools.json` (src line 90). -/
def url7zExtra : String := "tools.7zip.7z_extra"

/-- URL of the WiX archive from `tools.json` (src line 107). -/
def urlWix : String := "tools.wix.url"

/-! ## Output normalizer (`cleanup_dlls`, src lines 172-178) -/

/-- Whether a file name matches the glob `*.dll_amd64` (src line 174). -/
def isDllAmd64 (n : String) : Bool := endsWithS n ".dll_amd64"

/-- `dll_file.stem.replace('_amd64', '') + '.dll'` (src line 175). -/
def dllNewName (n : String) : String :=
  String.mk (replaceAmd64 (pyStemChars n.data)) ++ ".dll"

/-- One step of `cleanup_dlls`: a file matching `*.dll_amd64` is renamed,
any other file is untouched; contents are never modified. -/
def renameStep (f : File) : File :=
  if isDllAmd64 f.name then ⟨dllNewName f.name, f.content⟩ else f

/-- `cleanup_dlls` (src lines 172-178): rename every file of the directory
matching `*.dll_amd64`.  Renamed files keep their position; names produced by
the rename never match the glob again, so modelling the loop as a map over
the directory snapshot is exact. -/
def cleanup_dlls (d : Dir) : Dir := d.map renameStep

/-! ## Format classification (spec §4.1; src lines 199, 205, 210)

The code has no named classifier; the strategy is decided by the branch
structure of `process_runtime`: `major_version == 10` is rejected before the
`try` block (line 199), `major_version < 11` takes the 7-Zip path (line 205),
everything else the WiX path (line 210).
-/

inductive Strategy where
  | Unsupported
  | LegacySelfExtracting
  | ModernBundle
deriving DecidableEq

/-- The classification rule of `process_runtime`, with the branches in source
order: the generation-10 check (src line 199) precedes the `< 11` legacy
check (src line 205). -/
def classify (g : Nat) : Strategy :=
  if g = 10 then Strategy.Unsupported
  else if g < 11 then Strategy.LegacySelfExtracting
  else Strategy.ModernBundle

/-! ## The fetch layer (`download_file`, src lines 42-77) -/

/-- Whether some attempt of the `max_retries = 3` retry loop succeeds. -/
def succFetch (env : Env) (uri : String) : Bool :=
  env.fetchAttemptOk uri 0 || (env.fetchAttemptOk uri 1 || env.fetchAttemptOk uri 2)

/-- `download_file` (src lines 42-77).  `present` is `dest.is_file()`: when
the destination already exists the download is skipped (src lines 44-47);
otherwise up to three fetch attempts are made and exhaustion re-raises the
last error (line 73).  Returns the trace and whether the call returned
normally; on success with `present = false` the caller records the new file. -/
def download_file (env : Env) (args : Args) (uri : String) (present : Bool) :
    Trace × Bool :=
  if present then
    (⟨if args.silent then [] else ["File exists, skipping download: " ++ uri], [], 0⟩, true)
  else
    (⟨if args.silent then [] else ["Downloading " ++ uri], [uri], 0⟩, succFetch env uri)

/-! ## Tool provisioning (src lines 79-116) -/

/-- `fetch_7zip` (src lines 79-96): ensure `7zr.exe`, `7z-extra.7z` and
`7za.exe` exist under `core/7zip`, downloading / unpacking whatever is
missing.  The returned `Bool` is `false` when a step raised. -/
def fetch_7zip (env : Env) (args : Args) (fs : FS) : FS × Trace × Bool :=
  let s1 :=
    if fs.sevenZr then (fs, Trace.nil, true)
    else
      let (t, ok) := download_file env args url7zr false
      ({ fs with sevenZr := ok }, t, ok)
  match s1 with
  | (fs1, t1, ok1) =>
    if ok1 then
      let s2 :=
        if fs1.sevenZExtra then (fs1, Trace.nil, true)
        else
          let (t, ok) := download_file env args url7zExtra false
          ({ fs1 with sevenZExtra := ok }, t, ok)
      match s2 with
      | (fs2, t2, ok2) =>
        if ok2 then
          let s3 :=
            if fs2.sevenZa then (fs2, Trace.nil, true)
            else
              ({ fs2 with sevenZa := env.sevenZrUnpackOk }, ⟨[], [], 1⟩,
               env.sevenZrUnpackOk)
          match s3 with
          | (fs3, t3, ok3) => (fs3, Trace.app t1 (Trace.app t2 t3), ok3)
        else (fs2, Trace.app t1 t2, false)
    else (fs1, t1, false)

/-- `fetch_wix` (src lines 98-116): if `core/wix/dark.exe` is missing,
download the WiX archive and extract it in place (in-process `zipfile`, no
subprocess), then delete the archive. -/
def fetch_wix (env : Env) (args : Args) (fs : FS) : FS × Trace × Bool :=
  if fs.darkExe then (fs, Trace.nil, true)
  else
    let (t, ok) := download_file env args urlWix false
    if ok then
      if env.wixZipOk then ({ fs with darkExe := true }, t, true)
      else (fs, t, false)
    else (fs, t, false)

/-! ## Container extraction and payload location (src lines 118-170) -/

/-- Path of a file inside the working area of an installer. -/
def waCab (installer cab : String) : String := installer ++ "/" ++ cab

/-- `extract_old_installer` (src lines 136-153): run
`7za x -o<workingArea> installer -i!*.cab` (one subprocess; `check=True`
raises on non-zero exit), then raise `ValueError` when `any(iterdir())` is
false, i.e. the fresh working area is empty; otherwise return the working
area, given by the names the tool produced. -/
def extract_old_installer (env : Env) (installer : String) :
    Trace × Except String (List String) :=
  if env.sevenZaOk installer then
    if (env.legacyProduced installer).isEmpty then
      (⟨[], [], 1⟩, Except.error ("Failed to extract any cabinet file from " ++ installer))
    else (⟨[], [], 1⟩, Except.ok (env.legacyProduced installer))
  else (⟨[], [], 1⟩, Except.error "7za.exe exited with non-zero status")

/-- `extract_burn_bundle` (src lines 118-134): run
`dark.exe -nologo -x <workingArea> installer` (one subprocess, `check=True`),
returning the working area — identified here by its installer — with no
emptiness check. -/
def extract_burn_bundle (env : Env) (installer : String) :
    Trace × Except String String :=
  if env.darkOk installer then (⟨[], [], 1⟩, Except.ok installer)
  else (⟨[], [], 1⟩, Except.error "dark.exe exited with non-zero status")

/-- `find_cabs` (src lines 155-158): one `cab1.cab` path per child of
`<workingArea>/AttachedContainer/packages` whose name matches `*_amd64`.
No existence check is made on the `cab1.cab` paths themselves. -/
def find_cabs (env : Env) (bundleDir : String) : List String :=
  ((env.bundlePackages bundleDir).filter (fun p => endsWithS p "_amd64")).map
    (fun p => bundleDir ++ "/AttachedContainer/packages/" ++ p ++ "/cab1.cab")

/-- The `for cab in ...: self.extract_cab(cab, output_dir)` loops (src lines
208-209 and 213-214).  Each iteration spawns `expand.exe -F:* cab dest`
(src lines 160-170, `check=True`); on success the cabinet's files are written
into the output directory, on non-zero exit the exception aborts the loop
(a failing expansion writes nothing).  Returns the directory contents, the
number of processes spawned, the number of cabinets expanded, and the
exception if one was raised. -/
def expandCabs (env : Env) : List String → Dir → Dir × Nat × Nat × Option String
  | [], d => (d, 0, 0, none)
  | c :: rest, d =>
    if env.expandOk c then
      match expandCabs env rest (putFiles d (env.cabFiles c)) with
      | (d1, tr, n, e) => (d1, tr + 1, n + 1, e)
    else (d, 1, 0, some "expand.exe exited with non-zero status")

/-! ## The per-runtime pipeline (`process_runtime`, src lines 180-220) -/

/-- The `try` block of `process_runtime` (src lines 204-217): provision the
tool for the generation, extract the container, expand every located
cabinet into the output directory, then normalize.  `d` is the current
contents of the output directory.  Returns the updated core-tools state, the
updated directory contents, the trace, and either the number of cabinets
expanded or the caught exception's message. -/
def try_block (env : Env) (args : Args) (g : Nat) (installer : String)
    (fs : FS) (d : Dir) : FS × Dir × Trace × Except String Nat :=
  if g < 11 then
    match fetch_7zip env args fs with
    | (fs1, t1, ok1) =>
      if ok1 then
        match extract_old_installer env installer with
        | (t2, Except.error m) => (fs1, d, Trace.app t1 t2, Except.error m)
        | (t2, Except.ok produced) =>
          let cabs := (produced.filter (fun c => endsWithS c ".cab")).map (waCab installer)
          match expandCabs env cabs d with
          | (d1, truns, _, some m) =>
            (fs1, d1, Trace.app t1 (Trace.app t2 ⟨[], [], truns⟩), Except.error m)
          | (d1, truns, n, none) =>
            (fs1, cleanup_dlls d1, Trace.app t1 (Trace.app t2 ⟨[], [], truns⟩),
             Except.ok n)
      else (fs1, d, t1, Except.error "tool provisioning failed")
  else
    match fetch_wix env args fs with
    | (fs1, t1, ok1) =>
      if ok1 then
        match extract_burn_bundle env installer with
        | (t2, Except.error m) => (fs1, d, Trace.app t1 t2, Except.error m)
        | (t2, Except.ok wa) =>
          let cabs := find_cabs env wa
          match expandCabs env cabs d with
          | (d1, truns, _, some m) =>
            (fs1, d1, Trace.app t1 (Trace.app t2 ⟨[], [], truns⟩), Except.error m)
          | (d1, truns, n, none) =>
            (fs1, cleanup_dlls d1, Trace.app t1 (Trace.app t2 ⟨[], [], truns⟩),
             Except.ok n)
      else (fs1, d, t1, Except.error "tool provisioning failed")

/-- The `Already have {version}` skip message (src line 191). -/
def skipMsg (args : Args) (v : String) : List String :=
  if args.silent then [] else ["Already have " ++ v]

/-- The generation-10 skip message (src line 201). -/
def msg2010 (args : Args) : List String :=
  if args.silent then [] else ["Cannot extract Visual C++ 2010 runtime. Skipping."]

/-- The caught-failure report (src line 220). -/
def errMsg (args : Args) (v m : String) : List String :=
  if args.silent then [] else ["Error processing " ++ v ++ ": " ++ m]

/-- `process_runtime` (src lines 180-220).  An `Except.error` result is an
exception escaping the function (unparseable version at line 183, or the
installer download re-raising after retry exhaustion at line 197 — both sit
outside the `try` of line 204). -/
def process_runtime (env : Env) (args : Args) (inc : Bool) (rt : Runtime)
    (fs : FS) : FS × Trace × Except String Outcome :=
  match majorOf rt.version with
  | none => (fs, Trace.nil, Except.error "invalid version")
  | some g =>
    if inc = false ∧ g < 14 then
      (fs, Trace.nil, Except.ok Outcome.skippedOld)
    else
      let dname := outDirName rt.version
      if dirPopulated fs.outputDirs dname then
        (fs, ⟨skipMsg args rt.version, [], 0⟩, Except.ok Outcome.skippedAlready)
      else
        let fs1 : FS := { fs with outputDirs := dirEnsure fs.outputDirs dname }
        let iname := installerName rt
        let present : Bool := decide (iname ∈ fs1.downloads)
        match download_file env args rt.url present with
        | (tdl, okdl) =>
          let fs2 : FS :=
            if okdl ∧ present = false then { fs1 with downloads := iname :: fs1.downloads }
            else fs1
          if okdl = false then
            (fs2, tdl, Except.error "download failed")
          else if g = 10 then
            (fs2, Trace.app tdl ⟨msg2010 args, [], 0⟩, Except.ok Outcome.skippedUnsupported)
          else
            let d0 : Dir := (dirLookup fs2.outputDirs dname).getD []
            match try_block env args g iname fs2 d0 with
            | (fs3, d1, ttry, rtry) =>
              let fs4 : FS := { fs3 with outputDirs := dirSet fs3.outputDirs dname d1 }
              match rtry with
              | Except.ok n =>
                (fs4, Trace.app tdl ttry, Except.ok (Outcome.done n))
              | Except.error m =>
                (fs4, Trace.app tdl (Trace.app ttry ⟨errMsg args rt.version m, [], 0⟩),
                 Except.ok (Outcome.failed m))

/-! ## The batch orchestrator (`fetch_all`, src lines 229-243) -/

/-- `cleanup_temp` (src lines 222-227): delete the temporary and download
directories.  Temporary working areas are not part of the persistent state
of this model, so only the download cache is cleared. -/
def cleanup_temp (fs : FS) : FS := { fs with downloads := [] }

/-- The per-descriptor loop of `fetch_all` (src lines 239-240): runtimes are
processed in configuration order, with no exception handling around
`process_runtime` — an escaping exception aborts the remaining batch.
Returns the final state, the per-runtime `(version, trace, outcome)`
observations of the descriptors that completed, and the escaping exception if
one occurred. -/
def runBatch (env : Env) (args : Args) (inc : Bool) :
    List Runtime → FS → FS × List (String × Trace × Outcome) × Option String
  | [], fs => (fs, [], none)
  | rt :: rest, fs =>
    match process_runtime env args inc rt fs with
    | (fs1, _, Except.error m) => (fs1, [], some m)
    | (fs1, tr, Except.ok o) =>
      match runBatch env args inc rest fs1 with
      | (fs2, res, ab) => (fs2, (rt.version, tr, o) :: res, ab)

/-- `fetch_all` (src lines 229-243).  With `--version` set, only the first
descriptor with that version is processed and no cleanup runs (src lines
231-237); otherwise the whole batch is processed and, unless `--no-cleanup`
was given or an exception escaped, the temp/download directories are removed
(src lines 242-243). -/
def fetch_all (env : Env) (args : Args) (inc : Bool) (rts : List Runtime)
    (fs : FS) : FS × List (String × Trace × Outcome) × Option String :=
  match args.version with
  | some v =>
    match rts.find? (fun r => r.version == v) with
    | some rt =>
      match process_runtime env args inc rt fs with
      | (fs1, _, Except.error m) => (fs1, [], some m)
      | (fs1, tr, Except.ok o) => (fs1, [(rt.version, tr, o)], none)
    | none => (fs, [], none)
  | none =>
    match runBatch env args inc rts fs with
    | (fs1, res, some m) => (fs1, res, some m)
    | (fs1, res, none) =>
      (if args.noCleanup then fs1 else cleanup_temp fs1, res, none)

/-- The empty starting state: no output directories, an empty download
cache, no provisioned tools. -/
def cleanFS : FS := ⟨[], [], false, false, false, false⟩

/-! ## Success of a provisioning pass, as a function of the environment alone -/

/-- Environment-determined success of `fetch_7zip` when nothing is
provisioned yet: both downloads succeed and the `7zr.exe` unpack run exits 0. -/
def pure7z (env : Env) : Bool :=
  succFetch env url7zr && (succFetch env url7zExtra && env.sevenZrUnpackOk)

/-- Environment-determined success of `fetch_wix` when `dark.exe` is not
yet provisioned: the download succeeds and the archive extracts. -/
def pureWix (env : Env) : Bool :=
  succFetch env urlWix && env.wixZipOk

/-! ## Association-list lemmas -/

theorem dirLookup_dirEnsure_self (l : List (String × Dir)) (k : String) :
    dirLookup (dirEnsure l k) k = some ((dirLookup l k).getD []) := by
  induction l with
  | nil => simp [dirEnsure, dirLookup]
  | cons p rest ih =>
    obtain ⟨k0, d0⟩ := p
    by_cases h : k0 = k
    · simp [dirEnsure, dirLookup, h]
    · simp [dirEnsure, dirLookup, h, ih]

theorem dirLookup_dirEnsure_ne (l : List (String × Dir)) (k k' : String)
    (h : k' ≠ k) : dirLookup (dirEnsure l k) k' = dirLookup l k' := by
  have hk : ¬ k = k' := fun e => h e.symm
  induction l with
  | nil => simp [dirEnsure, dirLookup, hk]
  | cons p rest ih =>
    obtain ⟨k0, d0⟩ := p
    by_cases h0 : k0 = k
    · simp [dirEnsure, dirLookup, h0]
    · simp [dirEnsure, dirLookup, h0, ih]

theorem dirLookup_dirSet_self (l : List (String × Dir)) (k : String) (v : Dir) :
    dirLookup (dirSet l k v) k = (dirLookup l k).map (fun _ => v) := by
  induction l with
  | nil => simp [dirSet, dirLookup]
  | cons p rest ih =>
    obtain ⟨k0, d0⟩ := p
    by_cases h : k0 = k
    · simp [dirSet, dirLookup, h]
    · simp [dirSet, dirLookup, h, ih]

theorem dirLookup_dirSet_ne (l : List (String × Dir)) (k k' : String) (v : Dir)
    (h : k' ≠ k) : dirLookup (dirSet l k v) k' = dirLookup l k' := by
  have hk : ¬ k = k' := fun e => h e.symm
  induction l with
  | nil => simp [dirSet, dirLookup]
  | cons p rest ih =>
    obtain ⟨k0, d0⟩ := p
    by_cases h0 : k0 = k
    · subst h0
      simp [dirSet, dirLookup, hk]
    · simp [dirSet, dirLookup, h0, ih]

theorem dirSet_lookup_eq (l : List (String × Dir)) (k : String) (v : Dir)
    (h : dirLookup l k = some v) : dirSet l k v = l := by
  induction l with
  | nil => simp [dirSet]
  | cons p rest ih =>
    obtain ⟨k0, d0⟩ := p
    by_cases h0 : k0 = k
    · subst h0
      simp [dirLookup] at h
      simp [dirSet, h]
    · simp [dirLookup, h0] at h
      simp [dirSet, h0, ih h]

theorem dirPopulated_false_cases (l : List (String × Dir)) (k : String)
    (h : dirPopulated l k = false) :
    dirLookup l k = none ∨ dirLookup l k = some [] := by
  unfold dirPopulated at h
  rcases hl : dirLookup l k with _ | d
  · exact Or.inl rfl
  · right
    rw [hl] at h
    simp at h
    simp [h]

theorem dirPopulated_true_of_lookup (l : List (String × Dir)) (k : String)
    (d : Dir) (hl : dirLookup l k = some d) (hd : d ≠ []) :
    dirPopulated l k = true := by
  unfold dirPopulated
  rw [hl]
  simpa using hd

/-! ## Concrete fixtures used by witnesses and counterexamples -/

/-- An environment where every external operation succeeds and every bundle
has one `amd64` package. -/
def envAllOk : Env where
  fetchAttemptOk := fun _ _ => true
  sevenZrUnpackOk := true
  wixZipOk := true
  sevenZaOk := fun _ => true
  legacyProduced := fun _ => ["filter.dll", "vcredist.cab"]
  darkOk := fun _ => true
  bundlePackages := fun _ => ["vcruntimeminimum_amd64"]
  expandOk := fun _ => true
  cabFiles := fun _ => [⟨"vcruntime140.dll_amd64", 1⟩]

/-- Everything succeeds but modern bundles contain no `*_amd64` package. -/
def envNoCabs : Env := { envAllOk with bundlePackages := fun _ => [] }

def argsLoud : Args := ⟨false, false, false, none⟩

def argsSilent : Args := ⟨true, false, false, none⟩

def rt14 : Runtime := ⟨"14.0.2", "http://example/vc14.exe"⟩

def rt10 : Runtime := ⟨"10.0.40219", "http://example/vc10.exe"⟩

def rt9 : Runtime := ⟨"9.0.1", "http://example/vc9.exe"⟩

/-! ## Quick sanity checks of the string layer -/

example : majorOf "14.0.2" = some 14 := by decide
example : majorOf "9.0.1" = some 9 := by decide
example : majorOf "" = none := by decide
example : majorOf "x.1" = none := by decide
example : lowerStr "VCRuntime_14.0.2" = "vcruntime_14.0.2" := by decide
example : pathName "http://example/vc14.exe" = "vc14.exe" := by decide
example : String.mk (pyStemChars "concrt140.dll_amd64".data) = "concrt140" := by decide
example : dllNewName "concrt140.dll_amd64" = "concrt140.dll" := by decide
example : dllNewName "vcruntime_amd64140.dll_amd64" = "vcruntime140.dll" := by decide
example : isDllAmd64 "foo_amd64.dll" = false := by decide
example : isDllAmd64 "foo.dll_amd64" = true := by decide
example : endsWithS "cab1.cab" ".cab" = true := by decide

/-! ## Normalizer lemmas -/

theorem data_append_dll (cs : List Char) :
    (String.mk cs ++ ".dll").data = cs ++ ['.', 'd', 'l', 'l'] := rfl

/-- A name produced by the `cleanup_dlls` rename ends in `.dll`, hence never
matches the glob `*.dll_amd64` again. -/
theorem isDllAmd64_dllNewName (n : String) : isDllAmd64 (dllNewName n) = false := by
  unfold isDllAmd64 dllNewName endsWithS
  rw [data_append_dll]
  have hrev : ".dll_amd64".data.reverse
      = ['4', '6', 'd', 'm', 'a', '_', 'l', 'l', 'd', '.'] := by decide
  rw [hrev, List.reverse_append]
  simp [List.isPrefixOf]

theorem renameStep_content (f : File) : (renameStep f).content = f.content := by
  unfold renameStep
  by_cases h : isDllAmd64 f.name
  · simp [h]
  · simp [h]

theorem renameStep_idem (f : File) : renameStep (renameStep f) = renameStep f := by
  by_cases h : isDllAmd64 f.name
  · have h1 : renameStep f = ⟨dllNewName f.name, f.content⟩ := by simp [renameStep, h]
    rw [h1]
    simp [renameStep, isDllAmd64_dllNewName]
  · simp [renameStep, h]

theorem isDllAmd64_renameStep (f : File) :
    isDllAmd64 (renameStep f).name = false := by
  by_cases h : isDllAmd64 f.name
  · simp [renameStep, h, isDllAmd64_dllNewName]
  · simp [renameStep, h]

/-- C7: the output normalizer is a fixed point under repetition: applying
`cleanup_dlls` twice to any directory yields the same contents as applying it
once — the second pass matches no file and renames nothing. -/
theorem c7_normalizer_fixed_point (d : Dir) :
    cleanup_dlls (cleanup_dlls d) = cleanup_dlls d := by
  unfold cleanup_dlls
  rw [List.map_map]
  exact List.map_congr_left (fun f _ => renameStep_idem f)

/-- The spec's §4.6 architecture-marker pattern `<stem>_<arch>.<ext>`: the
`_amd64` marker sits immediately before the extension. -/
def specArchMarker (n : String) : Prop :=
  ∃ stem ext, stem ≠ "" ∧ ext ≠ "" ∧ n = stem ++ "_amd64." ++ ext

/-- C6 counterexample: a file named with the spec's pattern
`<stem>_amd64.<ext>` — here `foo_amd64.dll` — is NOT renamed by
`cleanup_dlls`, which only matches the glob `*.dll_amd64` (src line 174); the
`_amd64` marker therefore survives normalization, contradicting the claim. -/
theorem c6_counterexample :
    specArchMarker "foo_amd64.dll" ∧
    cleanup_dlls [⟨"foo_amd64.dll", 7⟩] = [⟨"foo_amd64.dll", 7⟩] :=
  ⟨⟨"foo", "dll", by decide, by decide, by decide⟩, by decide⟩

/-- C6 (amended): after `cleanup_dlls`, no file matching `*.dll_amd64`
remains — every such file was renamed to its stem with all `_amd64`
occurrences removed plus `.dll` — file contents are unmodified, and files not
matching that glob (including names with `_amd64` before their `.dll`
extension) are left untouched. -/
theorem c6_amended (d : Dir) :
    (∀ f ∈ cleanup_dlls d, isDllAmd64 f.name = false) ∧
    (cleanup_dlls d).map File.content = d.map File.content ∧
    (∀ f ∈ d, isDllAmd64 f.name = false → f ∈ cleanup_dlls d) := by
  refine ⟨?_, ?_, ?_⟩
  · intro f hf
    rcases List.mem_map.mp hf with ⟨g, _, rfl⟩
    exact isDllAmd64_renameStep g
  · unfold cleanup_dlls
    rw [List.map_map]
    exact List.map_congr_left (fun f _ => renameStep_content f)
  · intro f hf h
    have : renameStep f = f := by simp [renameStep, h]
    exact List.mem_map.mpr ⟨f, hf, this⟩

theorem c6_witness :
    (∀ f ∈ cleanup_dlls [(⟨"vcruntime140.dll_amd64", 3⟩ : File), ⟨"readme.txt", 4⟩],
       isDllAmd64 f.name = false) ∧
    (cleanup_dlls [(⟨"vcruntime140.dll_amd64", 3⟩ : File), ⟨"readme.txt", 4⟩]).map File.content
      = [(⟨"vcruntime140.dll_amd64", 3⟩ : File), ⟨"readme.txt", 4⟩].map File.content ∧
    (∀ f ∈ [(⟨"vcruntime140.dll_amd64", 3⟩ : File), ⟨"readme.txt", 4⟩],
       isDllAmd64 f.name = false →
       f ∈ cleanup_dlls [(⟨"vcruntime140.dll_amd64", 3⟩ : File), ⟨"readme.txt", 4⟩]) :=
  c6_amended [⟨"vcruntime140.dll_amd64", 3⟩, ⟨"readme.txt", 4⟩]

/-! ## C1: format classification -/

/-- C1: for every version string whose leading numeric segment parses to `g`,
the classification is `Unsupported` iff `g = 10`, `LegacySelfExtracting` iff
`g < 11` and `g ≠ 10`, and `ModernBundle` iff `g ≥ 11`. -/
theorem c1_classify_generations (v : String) (g : Nat)
    (_h : majorOf v = some g) :
    (classify g = Strategy.Unsupported ↔ g = 10) ∧
    (classify g = Strategy.LegacySelfExtracting ↔ (g < 11 ∧ g ≠ 10)) ∧
    (classify g = Strategy.ModernBundle ↔ 11 ≤ g) := by
  unfold classify
  split_ifs with h10 h11
  · subst h10
    refine ⟨by simp, ?_, ?_⟩
    · constructor
      · intro hc
        exact absurd hc (by simp)
      · intro hc
        omega
    · constructor
      · intro hc
        exact absurd hc (by simp)
      · intro hc
        omega
  · refine ⟨?_, ?_, ?_⟩
    · constructor
      · intro hc
        exact absurd hc (by simp)
      · intro hc
        exact absurd hc h10
    · simp [h11, h10]
    · constructor
      · intro hc
        exact absurd hc (by simp)
      · intro hc
        omega
  · refine ⟨?_, ?_, ?_⟩
    · constructor
      · intro hc
        exact absurd hc (by simp)
      · intro hc
        exact absurd hc h10
    · constructor
      · intro hc
        exact absurd hc (by simp)
      · intro hc
        exact absurd hc.1 h11
    · simp
      omega

theorem c1_witness :
    (classify 14 = Strategy.Unsupported ↔ (14 : Nat) = 10) ∧
    (classify 14 = Strategy.LegacySelfExtracting ↔ ((14 : Nat) < 11 ∧ (14 : Nat) ≠ 10)) ∧
    (classify 14 = Strategy.ModernBundle ↔ 11 ≤ (14 : Nat)) :=
  c1_classify_generations "14.0.2" 14 (by decide)

/-! ## C5: the include-old-versions gate -/

/-- The old-version gate (src line 185): with `includeOldVersions = false`
and major generation below 14, `process_runtime` returns immediately. -/
theorem process_runtime_skippedOld (env : Env) (args : Args) (rt : Runtime)
    (fs : FS) (g : Nat) (hg : majorOf rt.version = some g) (hlt : g < 14) :
    process_runtime env args false rt fs
      = (fs, Trace.nil, Except.ok Outcome.skippedOld) := by
  unfold process_runtime
  rw [hg]
  simp [hlt]

/-- C5: with `includeOldVersions = false`, a descriptor of major generation
below 14 is returned from unchanged state with an empty trace — no message,
no network fetch, no process spawned, no directory created, before any other
check runs (src line 185). -/
theorem c5_old_version_skip (env : Env) (args : Args) (rt : Runtime) (fs : FS)
    (g : Nat) (hg : majorOf rt.version = some g) (hlt : g < 14) :
    process_runtime env args false rt fs
      = (fs, Trace.nil, Except.ok Outcome.skippedOld) :=
  process_runtime_skippedOld env args rt fs g hg hlt

theorem c5_witness :
    process_runtime envAllOk argsLoud false rt9 cleanFS
      = (cleanFS, Trace.nil, Except.ok Outcome.skippedOld) :=
  c5_old_version_skip envAllOk argsLoud rt9 cleanFS 9 (by decide) (by decide)

/-! ## C8: the legacy container-extraction postcondition -/

/-- C8: for a legacy installer whose `7za.exe` run exits 0,
`extract_old_installer` raises the extraction error exactly when the fresh
working area is empty afterwards, and otherwise returns the (non-empty)
working area. -/
theorem c8_legacy_extraction_postcondition (env : Env) (installer : String)
    (h : env.sevenZaOk installer = true) :
    (env.legacyProduced installer = [] →
      (extract_old_installer env installer).2
        = Except.error ("Failed to extract any cabinet file from " ++ installer)) ∧
    (env.legacyProduced installer ≠ [] →
      (extract_old_installer env installer).2
        = Except.ok (env.legacyProduced installer)) := by
  constructor
  · intro he
    simp [extract_old_installer, h, he]
  · intro he
    simp [extract_old_installer, h, List.isEmpty_iff, he]

theorem c8_witness :
    (Env.legacyProduced { envAllOk with legacyProduced := fun _ => [] } "i" = [] →
      (extract_old_installer { envAllOk with legacyProduced := fun _ => [] } "i").2
        = Except.error ("Failed to extract any cabinet file from " ++ "i")) ∧
    (Env.legacyProduced { envAllOk with legacyProduced := fun _ => [] } "i" ≠ [] →
      (extract_old_installer { envAllOk with legacyProduced := fun _ => [] } "i").2
        = Except.ok (Env.legacyProduced { envAllOk with legacyProduced := fun _ => [] } "i")) :=
  c8_legacy_extraction_postcondition { envAllOk with legacyProduced := fun _ => [] } "i" (by decide)

/-! ## Characterizations of `process_runtime` branches -/

/-- Already-populated output directory: the pipeline short-circuits with no
state change, no fetch and no process spawned (src lines 189-192). -/
theorem process_runtime_skippedAlready (env : Env) (args : Args) (inc : Bool)
    (rt : Runtime) (fs : FS) (g : Nat)
    (hg : majorOf rt.version = some g) (hgate : ¬(inc = false ∧ g < 14))
    (hpop : dirPopulated fs.outputDirs (outDirName rt.version) = true) :
    process_runtime env args inc rt fs
      = (fs, ⟨skipMsg args rt.version, [], 0⟩, Except.ok Outcome.skippedAlready) := by
  unfold process_runtime
  rw [hg]
  simp [hgate, hpop]

/-- Generation 10, uncached installer: the output directory is created, the
installer is fetched into the cache, and only then is the runtime skipped
(src lines 194-202). -/
theorem process_runtime_gen10_uncached (env : Env) (args : Args) (rt : Runtime)
    (fs : FS)
    (hg : majorOf rt.version = some 10)
    (hpop : dirPopulated fs.outputDirs (outDirName rt.version) = false)
    (hmem : installerName rt ∉ fs.downloads)
    (hfetch : succFetch env rt.url = true) :
    process_runtime env args true rt fs
      = ({ fs with outputDirs := dirEnsure fs.outputDirs (outDirName rt.version),
                   downloads := installerName rt :: fs.downloads },
         Trace.app ⟨if args.silent then [] else ["Downloading " ++ rt.url], [rt.url], 0⟩
           ⟨msg2010 args, [], 0⟩,
         Except.ok Outcome.skippedUnsupported) := by
  unfold process_runtime
  rw [hg]
  simp [hpop, download_file, hmem, hfetch]

/-- Generation 10, cached installer: as above but the download is skipped
because the destination file exists (src lines 44-47). -/
theorem process_runtime_gen10_cached (env : Env) (args : Args) (rt : Runtime)
    (fs : FS)
    (hg : majorOf rt.version = some 10)
    (hpop : dirPopulated fs.outputDirs (outDirName rt.version) = false)
    (hmem : installerName rt ∈ fs.downloads) :
    process_runtime env args true rt fs
      = ({ fs with outputDirs := dirEnsure fs.outputDirs (outDirName rt.version) },
         Trace.app
           ⟨if args.silent then [] else ["File exists, skipping download: " ++ rt.url], [], 0⟩
           ⟨msg2010 args, [], 0⟩,
         Except.ok Outcome.skippedUnsupported) := by
  unfold process_runtime
  rw [hg]
  simp [hpop, download_file, hmem]

/-! ## C9: skip reasons and quiet mode -/

/-- C9 counterexample: in silent mode a generation-10 runtime is skipped with
NO reported reason — the entire modelled output of the call is empty, because
the skip message is guarded by `if not self.args.silent` (src lines 200-201),
contradicting "always reported even in quiet modes". -/
theorem c9_counterexample :
    (process_runtime envAllOk argsSilent true rt10 cleanFS).2.2
        = Except.ok Outcome.skippedUnsupported ∧
    (process_runtime envAllOk argsSilent true rt10 cleanFS).2.1.messages = [] := by
  constructor
  · decide
  · decide

/-- C9 (amended): the already-present and unsupported-generation skip
reasons are reported if and only if silent mode is off; in silent mode they
are suppressed along with all other informational output (src lines 190-191
and 200-201). -/
theorem c9_amended (env : Env) (args : Args) (inc : Bool) (rt : Runtime)
    (fs : FS) (g : Nat)
    (hg : majorOf rt.version = some g) (hgate : ¬(inc = false ∧ g < 14)) :
    (dirPopulated fs.outputDirs (outDirName rt.version) = true →
      ((("Already have " ++ rt.version)
          ∈ (process_runtime env args inc rt fs).2.1.messages)
        ↔ args.silent = false)) ∧
    (dirPopulated fs.outputDirs (outDirName rt.version) = false → g = 10 →
      inc = true → succFetch env rt.url = true →
      (("Cannot extract Visual C++ 2010 runtime. Skipping."
          ∈ (process_runtime env args inc rt fs).2.1.messages)
        ↔ args.silent = false)) := by
  constructor
  · intro hpop
    rw [process_runtime_skippedAlready env args inc rt fs g hg hgate hpop]
    unfold skipMsg
    cases hs : args.silent
    · simp
    · simp
  · intro hpop h10 hinc hfetch
    subst h10
    subst hinc
    by_cases hmem : installerName rt ∈ fs.downloads
    · rw [process_runtime_gen10_cached env args rt fs hg hpop hmem]
      unfold Trace.app msg2010
      cases hs : args.silent
      · simp
      · simp
    · rw [process_runtime_gen10_uncached env args rt fs hg hpop hmem hfetch]
      unfold Trace.app msg2010
      cases hs : args.silent
      · simp
      · simp

theorem c9_witness :
    (dirPopulated cleanFS.outputDirs (outDirName rt10.version) = true →
      ((("Already have " ++ rt10.version)
          ∈ (process_runtime envAllOk argsLoud true rt10 cleanFS).2.1.messages)
        ↔ argsLoud.silent = false)) ∧
    (dirPopulated cleanFS.outputDirs (outDirName rt10.version) = false → (10 : Nat) = 10 →
      true = true → succFetch envAllOk rt10.url = true →
      (("Cannot extract Visual C++ 2010 runtime. Skipping."
          ∈ (process_runtime envAllOk argsLoud true rt10 cleanFS).2.1.messages)
        ↔ argsLoud.silent = false)) :=
  c9_amended envAllOk argsLoud true rt10 cleanFS 10 (by decide) (by decide)

/-! ## C10: observable effects of the generation-10 skip -/

/-- C10: a generation-10 descriptor processed with `includeOldVersions=true`
creates its (empty) output directory and fetches the installer into the
download cache before skipping; the created directory is empty, so the
non-emptiness idempotency marker is not tripped and a second run reaches the
same unsupported-generation skip rather than the already-processed skip. -/
theorem c10_gen10_frame_effects (env : Env) (args : Args) (rt : Runtime)
    (fs : FS)
    (hg : majorOf rt.version = some 10)
    (hpop : dirPopulated fs.outputDirs (outDirName rt.version) = false)
    (hmem : installerName rt ∉ fs.downloads)
    (hfetch : succFetch env rt.url = true) :
    (process_runtime env args true rt fs).2.2 = Except.ok Outcome.skippedUnsupported ∧
    (process_runtime env args true rt fs).2.1.fetches = [rt.url] ∧
    installerName rt ∈ (process_runtime env args true rt fs).1.downloads ∧
    dirLookup (process_runtime env args true rt fs).1.outputDirs (outDirName rt.version)
      = some [] ∧
    (process_runtime env args true rt (process_runtime env args true rt fs).1).2.2
      = Except.ok Outcome.skippedUnsupported := by
  have hlook : dirLookup (dirEnsure fs.outputDirs (outDirName rt.version))
      (outDirName rt.version) = some [] := by
    rw [dirLookup_dirEnsure_self]
    rcases dirPopulated_false_cases _ _ hpop with h | h
    · simp [h]
    · simp [h]
  rw [process_runtime_gen10_uncached env args rt fs hg hpop hmem hfetch]
  refine ⟨rfl, ?_, ?_, ?_, ?_⟩
  · simp [Trace.app]
  · simp
  · exact hlook
  · have hpop2 : dirPopulated
        ({ fs with outputDirs := dirEnsure fs.outputDirs (outDirName rt.version),
                   downloads := installerName rt :: fs.downloads } : FS).outputDirs
        (outDirName rt.version) = false := by
      unfold dirPopulated
      rw [hlook]
      simp
    rw [process_runtime_gen10_cached env args rt _ hg hpop2 (by simp)]

theorem c10_witness :
    (process_runtime envAllOk argsLoud true rt10 cleanFS).2.2
        = Except.ok Outcome.skippedUnsupported ∧
    (process_runtime envAllOk argsLoud true rt10 cleanFS).2.1.fetches = [rt10.url] ∧
    installerName rt10 ∈ (process_runtime envAllOk argsLoud true rt10 cleanFS).1.downloads ∧
    dirLookup (process_runtime envAllOk argsLoud true rt10 cleanFS).1.outputDirs
      (outDirName rt10.version) = some [] ∧
    (process_runtime envAllOk argsLoud true rt10
        (process_runtime envAllOk argsLoud true rt10 cleanFS).1).2.2
      = Except.ok Outcome.skippedUnsupported :=
  c10_gen10_frame_effects envAllOk argsLoud rt10 cleanFS (by decide) (by decide)
    (by decide) (by decide)

/-! ## Monotone success lemmas for provisioning and download -/

theorem download_file_ok_of_succ (env : Env) (args : Args) (uri : String)
    (p : Bool) (h : succFetch env uri = true) :
    (download_file env args uri p).2 = true := by
  unfold download_file
  cases p
  · simp [h]
  · simp

theorem fetch_7zip_ok_of_pure (env : Env) (args : Args) (fs : FS)
    (h : pure7z env = true) : (fetch_7zip env args fs).2.2 = true := by
  unfold pure7z at h
  simp only [Bool.and_eq_true] at h
  obtain ⟨h1, h2, h3⟩ := h
  unfold fetch_7zip
  cases hz : fs.sevenZr <;> cases hx : fs.sevenZExtra <;> cases ha : fs.sevenZa <;>
    simp [hz, hx, ha, h1, h2, h3, download_file]

theorem fetch_wix_ok_of (env : Env) (args : Args) (fs : FS)
    (h : fs.darkExe = true ∨ pureWix env = true) :
    (fetch_wix env args fs).2.2 = true := by
  unfold fetch_wix
  cases hd : fs.darkExe
  · rcases h with h | h
    · rw [hd] at h
      exact absurd h (by simp)
    · unfold pureWix at h
      simp only [Bool.and_eq_true] at h
      simp [download_file, h.1, h.2]
  · simp

/-! ## `try_block` characterizations -/

/-- Legacy path with an empty working area: the `ValueError` of
`extract_old_installer` (src line 151) is the caught exception. -/
theorem try_block_legacy_empty (env : Env) (args : Args) (g : Nat)
    (installer : String) (fs : FS) (d : Dir)
    (hg11 : g < 11) (h7 : pure7z env = true)
    (hza : env.sevenZaOk installer = true)
    (hprod : env.legacyProduced installer = []) :
    (try_block env args g installer fs d).2.2.2
      = Except.error ("Failed to extract any cabinet file from " ++ installer) := by
  unfold try_block
  rcases h7f : fetch_7zip env args fs with ⟨fs1, t1, ok1⟩
  have hok : ok1 = true := by
    have h := fetch_7zip_ok_of_pure env args fs h7
    rw [h7f] at h
    exact h
  subst hok
  simp [hg11, extract_old_installer, hza, hprod]

/-- Modern path with zero located cabinets: the expansion loop runs zero
times and the `try` block completes normally with zero expansions. -/
theorem try_block_modern_nocabs (env : Env) (args : Args) (g : Nat)
    (installer : String) (fs : FS) (d : Dir)
    (hg11 : ¬ g < 11) (hwix : fs.darkExe = true ∨ pureWix env = true)
    (hdark : env.darkOk installer = true)
    (hpkgs : (env.bundlePackages installer).filter (fun p => endsWithS p "_amd64") = []) :
    (try_block env args g installer fs d).2.2.2 = Except.ok 0 ∧
    (try_block env args g installer fs d).2.1 = cleanup_dlls d := by
  unfold try_block
  rcases hwf : fetch_wix env args fs with ⟨fs1, t1, ok1⟩
  have hok : ok1 = true := by
    have h := fetch_wix_ok_of env args fs hwix
    rw [hwf] at h
    exact h
  subst hok
  simp [hg11, extract_burn_bundle, hdark, find_cabs, hpkgs, expandCabs]

/-! ## Further `process_runtime` characterizations -/

/-- Unparseable version: `int()` raises and the exception escapes (nothing
catches it before the caller). -/
theorem process_runtime_parse_fail (env : Env) (args : Args) (inc : Bool)
    (rt : Runtime) (fs : FS) (hg : majorOf rt.version = none) :
    process_runtime env args inc rt fs = (fs, Trace.nil, Except.error "invalid version") := by
  unfold process_runtime
  rw [hg]

/-- Reaching the `try` block: with the gate passed, the output directory not
populated, a non-10 generation and a succeeding fetch, `process_runtime` is
the `try_block` result written back into the (freshly ensured, empty) output
directory. -/
theorem process_runtime_try (env : Env) (args : Args) (inc : Bool)
    (rt : Runtime) (fs : FS) (g : Nat)
    (hg : majorOf rt.version = some g) (hgate : ¬(inc = false ∧ g < 14))
    (hpop : dirPopulated fs.outputDirs (outDirName rt.version) = false)
    (h10 : ¬ g = 10) (hfetch : succFetch env rt.url = true) :
    process_runtime env args inc rt fs =
      (match try_block env args g (installerName rt)
          { fs with outputDirs := dirEnsure fs.outputDirs (outDirName rt.version),
                    downloads := if installerName rt ∈ fs.downloads then fs.downloads
                                 else installerName rt :: fs.downloads } [] with
       | (fs3, d1, ttry, Except.ok n) =>
         ({ fs3 with outputDirs := dirSet fs3.outputDirs (outDirName rt.version) d1 },
          Trace.app (download_file env args rt.url (decide (installerName rt ∈ fs.downloads))).1 ttry,
          Except.ok (Outcome.done n))
       | (fs3, d1, ttry, Except.error m) =>
         ({ fs3 with outputDirs := dirSet fs3.outputDirs (outDirName rt.version) d1 },
          Trace.app (download_file env args rt.url (decide (installerName rt ∈ fs.downloads))).1
            (Trace.app ttry ⟨errMsg args rt.version m, [], 0⟩),
          Except.ok (Outcome.failed m))) := by
  have hd0 : (dirLookup (dirEnsure fs.outputDirs (outDirName rt.version))
      (outDirName rt.version)).getD [] = [] := by
    rw [dirLookup_dirEnsure_self]
    rcases dirPopulated_false_cases _ _ hpop with h | h
    · simp [h]
    · simp [h]
  unfold process_runtime
  rw [hg]
  dsimp only
  rw [if_neg hgate]
  rw [if_neg (by simp [hpop] : ¬ dirPopulated fs.outputDirs (outDirName rt.version) = true)]
  by_cases hmem : installerName rt ∈ fs.downloads
  · rcases htb : try_block env args g (installerName rt)
        { fs with outputDirs := dirEnsure fs.outputDirs (outDirName rt.version) } []
      with ⟨fs3, d1, ttry, rtry⟩
    cases rtry
    · simp [download_file, hmem, h10, hd0, htb]
    · simp [download_file, hmem, h10, hd0, htb]
  · rcases htb : try_block env args g (installerName rt)
        { fs with outputDirs := dirEnsure fs.outputDirs (outDirName rt.version),
                  downloads := installerName rt :: fs.downloads } []
      with ⟨fs3, d1, ttry, rtry⟩
    cases rtry
    · simp [download_file, hmem, h10, hd0, hfetch, htb]
    · simp [download_file, hmem, h10, hd0, hfetch, htb]

/-! ## C2: zero cabinet files and the terminal state -/

/-- Everything succeeds but legacy extraction yields an empty working area. -/
def envLegacyEmpty : Env := { envAllOk with legacyProduced := fun _ => [] }

def rt8 : Runtime := ⟨"8.0.50727", "http://example/vc8.exe"⟩

/-- C2 counterexample: a modern-bundle runtime whose working area contains
zero matching cabinet files (`find_cabs` returns `[]`) completes the `try`
block without error: the pipeline ends in `Done` with zero payload units
expanded — not in `Failed` (src lines 210-216 raise nothing when the
`for cab in self.find_cabs(...)` loop body never runs). -/
theorem c2_counterexample :
    find_cabs envNoCabs (installerName rt14) = [] ∧
    (process_runtime envNoCabs argsLoud false rt14 cleanFS).2.2
      = Except.ok (Outcome.done 0) := by
  constructor
  · decide
  · decide

/-- C2 (amended): only the legacy path guards against a missing payload, and
only against a fully empty working area: a legacy runtime whose extraction
produces an empty working area ends in `Failed`, but a modern runtime with
zero located cabinet files completes in `Done` with zero payload units
expanded — `Done` does not require any payload expansion. -/
theorem c2_amended (env : Env) (args : Args) (inc : Bool) (rt : Runtime)
    (fs : FS) (g : Nat)
    (hg : majorOf rt.version = some g) (hgate : ¬(inc = false ∧ g < 14))
    (hpop : dirPopulated fs.outputDirs (outDirName rt.version) = false)
    (hfetch : succFetch env rt.url = true) :
    (g < 11 → ¬ g = 10 → pure7z env = true →
      env.sevenZaOk (installerName rt) = true →
      env.legacyProduced (installerName rt) = [] →
      (process_runtime env args inc rt fs).2.2
        = Except.ok (Outcome.failed
            ("Failed to extract any cabinet file from " ++ installerName rt))) ∧
    (¬ g < 11 →
      (fs.darkExe = true ∨ pureWix env = true) →
      env.darkOk (installerName rt) = true →
      (env.bundlePackages (installerName rt)).filter (fun p => endsWithS p "_amd64") = [] →
      (process_runtime env args inc rt fs).2.2 = Except.ok (Outcome.done 0)) := by
  constructor
  · intro hlt h10 h7 hza hprod
    rw [process_runtime_try env args inc rt fs g hg hgate hpop h10 hfetch]
    rcases htb : try_block env args g (installerName rt)
        { fs with outputDirs := dirEnsure fs.outputDirs (outDirName rt.version),
                  downloads := if installerName rt ∈ fs.downloads then fs.downloads
                               else installerName rt :: fs.downloads } []
      with ⟨fs3, d1, ttry, rtry⟩
    have herr := try_block_legacy_empty env args g (installerName rt)
        { fs with outputDirs := dirEnsure fs.outputDirs (outDirName rt.version),
                  downloads := if installerName rt ∈ fs.downloads then fs.downloads
                               else installerName rt :: fs.downloads } []
        hlt h7 hza hprod
    rw [htb] at herr
    simp only at herr
    subst herr
    simp
  · intro hge hwix hdark hpkgs
    have h10 : ¬ g = 10 := by omega
    rw [process_runtime_try env args inc rt fs g hg hgate hpop h10 hfetch]
    rcases htb : try_block env args g (installerName rt)
        { fs with outputDirs := dirEnsure fs.outputDirs (outDirName rt.version),
                  downloads := if installerName rt ∈ fs.downloads then fs.downloads
                               else installerName rt :: fs.downloads } []
      with ⟨fs3, d1, ttry, rtry⟩
    have hok := try_block_modern_nocabs env args g (installerName rt)
        { fs with outputDirs := dirEnsure fs.outputDirs (outDirName rt.version),
                  downloads := if installerName rt ∈ fs.downloads then fs.downloads
                               else installerName rt :: fs.downloads } []
        hge (by simpa using hwix) hdark hpkgs
    rw [htb] at hok
    simp only at hok
    obtain ⟨hok1, _⟩ := hok
    subst hok1
    simp

theorem c2_witness :
    (process_runtime envLegacyEmpty argsLoud true rt8 cleanFS).2.2
      = Except.ok (Outcome.failed
          ("Failed to extract any cabinet file from " ++ installerName rt8)) ∧
    (process_runtime envNoCabs argsLoud true rt14 cleanFS).2.2
      = Except.ok (Outcome.done 0) :=
  ⟨(c2_amended envLegacyEmpty argsLoud true rt8 cleanFS 8 (by decide) (by decide)
      (by decide) (by decide)).1 (by decide) (by decide) (by decide) (by decide) (by decide),
   (c2_amended envNoCabs argsLoud true rt14 cleanFS 14 (by decide) (by decide)
      (by decide) (by decide)).2 (by decide) (Or.inr (by decide)) (by decide) (by decide)⟩

/-! ## C3: failure isolation at the per-runtime boundary -/

/-- With a parseable version and a succeeding installer fetch, no exception
escapes `process_runtime`: every extraction/expansion/provisioning failure
is caught by the `try`/`except` of src lines 204-220. -/
theorem process_runtime_isOk (env : Env) (args : Args) (inc : Bool)
    (rt : Runtime) (fs : FS) (g : Nat)
    (hg : majorOf rt.version = some g) (hfetch : succFetch env rt.url = true) :
    ∃ o, (process_runtime env args inc rt fs).2.2 = Except.ok o := by
  by_cases hgate : inc = false ∧ g < 14
  · refine ⟨Outcome.skippedOld, ?_⟩
    obtain ⟨h1, h2⟩ := hgate
    subst h1
    rw [process_runtime_skippedOld env args rt fs g hg h2]
  · by_cases hpop : dirPopulated fs.outputDirs (outDirName rt.version) = true
    · exact ⟨Outcome.skippedAlready,
        by rw [process_runtime_skippedAlready env args inc rt fs g hg hgate hpop]⟩
    · have hpop' : dirPopulated fs.outputDirs (outDirName rt.version) = false := by
        revert hpop
        cases dirPopulated fs.outputDirs (outDirName rt.version)
        · intro _
          rfl
        · intro h
          exact absurd rfl h
      by_cases h10 : g = 10
      · have hinc : inc = true := by
          cases hi : inc
          · rw [hi] at hgate
            exact absurd ⟨rfl, by omega⟩ hgate
          · rfl
        subst hinc
        subst h10
        by_cases hmem : installerName rt ∈ fs.downloads
        · exact ⟨Outcome.skippedUnsupported,
            by rw [process_runtime_gen10_cached env args rt fs hg hpop' hmem]⟩
        · exact ⟨Outcome.skippedUnsupported,
            by rw [process_runtime_gen10_uncached env args rt fs hg hpop' hmem hfetch]⟩
      · rw [process_runtime_try env args inc rt fs g hg hgate hpop' h10 hfetch]
        rcases try_block env args g (installerName rt)
            { fs with outputDirs := dirEnsure fs.outputDirs (outDirName rt.version),
                      downloads := if installerName rt ∈ fs.downloads then fs.downloads
                                   else installerName rt :: fs.downloads } []
          with ⟨fs3, d1, ttry, rtry⟩
        cases rtry
        · exact ⟨Outcome.failed _, rfl⟩
        · exact ⟨Outcome.done _, rfl⟩

/-- The batch loop never aborts and reaches every descriptor when each
descriptor parses and its installer fetch succeeds. -/
theorem runBatch_total (env : Env) (args : Args) (inc : Bool)
    (l : List Runtime) (fs : FS)
    (hp : ∀ rt ∈ l, (∃ g, majorOf rt.version = some g) ∧ succFetch env rt.url = true) :
    (runBatch env args inc l fs).2.2 = none ∧
    (runBatch env args inc l fs).2.1.length = l.length := by
  induction l generalizing fs with
  | nil => simp [runBatch]
  | cons rt rest ih =>
    obtain ⟨⟨g, hg⟩, hf⟩ := hp rt (by simp)
    obtain ⟨o, ho⟩ := process_runtime_isOk env args inc rt fs g hg hf
    unfold runBatch
    rcases hpr : process_runtime env args inc rt fs with ⟨fs1, tr, r⟩
    rw [hpr] at ho
    simp only at ho
    subst ho
    rcases hrb : runBatch env args inc rest fs1 with ⟨fs2, res, ab⟩
    have hres := ih fs1 (fun x hx => hp x (by simp [hx]))
    rw [hrb] at hres
    simp only at hres
    simp [hrb, hres.1, hres.2]

/-- A batch where the first runtime's URL never fetches successfully. -/
def envFailA : Env :=
  { envAllOk with fetchAttemptOk := fun u _ => u != "http://example/a.exe" }

def rtA : Runtime := ⟨"14.0.0", "http://example/a.exe"⟩

def rtB : Runtime := ⟨"14.1.0", "http://example/b.exe"⟩

/-- C3 counterexample: the installer download (src line 197) sits OUTSIDE the
`try` of line 204, and `fetch_all`'s loop (lines 239-240) has no handler — a
retrieval error after retry exhaustion on the first descriptor escapes and
aborts the whole batch: the second descriptor receives no outcome at all,
contradicting "one runtime's failure never aborts the batch". -/
theorem c3_counterexample :
    (fetch_all envFailA argsLoud false [rtA, rtB] cleanFS).2.2 = some "download failed" ∧
    (fetch_all envFailA argsLoud false [rtA, rtB] cleanFS).2.1 = [] := by
  constructor
  · decide
  · decide

/-- C3 (amended): failures raised inside the extraction stage (tool
provisioning, container extraction, payload expansion, normalization) are
caught at the per-runtime boundary and the orchestrator proceeds to the next
descriptor; but a retrieval error of the installer download (and an
unparseable version) escapes `process_runtime` and aborts the batch.  With
every descriptor parseable and every installer fetch succeeding — tool and
extraction failures unconstrained — the batch completes with one outcome per
descriptor. -/
theorem c3_amended (env : Env) (args : Args) (inc : Bool) (rts : List Runtime)
    (fs : FS) (hver : args.version = none)
    (hp : ∀ rt ∈ rts, (∃ g, majorOf rt.version = some g) ∧ succFetch env rt.url = true) :
    (fetch_all env args inc rts fs).2.2 = none ∧
    (fetch_all env args inc rts fs).2.1.length = rts.length := by
  unfold fetch_all
  rw [hver]
  rcases hrb : runBatch env args inc rts fs with ⟨fs1, res, ab⟩
  have hres := runBatch_total env args inc rts fs hp
  rw [hrb] at hres
  simp only at hres
  obtain ⟨h1, h2⟩ := hres
  subst h1
  simp [h2]

theorem c3_witness :
    (fetch_all { envAllOk with sevenZaOk := fun _ => false } argsLoud true [rt8, rtB]
        cleanFS).2.2 = none ∧
    (fetch_all { envAllOk with sevenZaOk := fun _ => false } argsLoud true [rt8, rtB]
        cleanFS).2.1.length = ([rt8, rtB] : List Runtime).length :=
  c3_amended { envAllOk with sevenZaOk := fun _ => false } argsLoud true [rt8, rtB]
    cleanFS rfl (by
      intro rt hrt
      rcases List.mem_cons.mp hrt with h | hrt
      · subst h
        exact ⟨⟨8, by decide⟩, by decide⟩
      · rcases List.mem_cons.mp hrt with h | hrt
        · subst h
          exact ⟨⟨14, by decide⟩, by decide⟩
        · cases hrt)

/-! ## C4: machinery for the two-run idempotence theorem

Strategy: from a clean starting state, every branch decision of
`process_runtime` other than the already-populated check is a pure function
of the environment and the descriptor.  `GoodFS` is the invariant making the
presence checks agree with the environment (every provisioned tool / cached
installer was obtained by a successful external operation), `pureTry` /
`pureProcess` are the environment-determined mirrors of `try_block` /
`process_runtime`, and the rerun theorem shows a second batch run never
changes any output directory.
-/

/-- Every cached or provisioned artefact is justified by a successful
external operation of the environment. -/
structure GoodFS (env : Env) (rts : List Runtime) (fs : FS) : Prop where
  h7zr : fs.sevenZr = true → succFetch env url7zr = true
  h7zx : fs.sevenZExtra = true → succFetch env url7zExtra = true
  h7za : fs.sevenZa = true → env.sevenZrUnpackOk = true
  hdark : fs.darkExe = true → succFetch env urlWix = true ∧ env.wixZipOk = true
  hdl : ∀ f ∈ fs.downloads,
    ∃ rt, rt ∈ rts ∧ f = installerName rt ∧ succFetch env rt.url = true

/-- The configuration gives distinct download-cache file names to distinct
descriptors (true of the real `vcredists.json`, whose versions are
pairwise distinct and prefix the file name). -/
def InjInstaller (rts : List Runtime) : Prop :=
  ∀ a ∈ rts, ∀ b ∈ rts, installerName a = installerName b → a = b

theorem goodFS_clean (env : Env) (rts : List Runtime) : GoodFS env rts cleanFS := by
  constructor
  · intro h
    exact absurd h (by decide)
  · intro h
    exact absurd h (by decide)
  · intro h
    exact absurd h (by decide)
  · intro h
    exact absurd h (by decide)
  · intro f hf
    simp [cleanFS] at hf

theorem goodFS_cleanup (env : Env) (rts : List Runtime) (fs : FS)
    (h : GoodFS env rts fs) : GoodFS env rts (cleanup_temp fs) := by
  obtain ⟨h1, h2, h3, h4, _⟩ := h
  exact ⟨h1, h2, h3, h4, by intro f hf; exact absurd hf (by simp [cleanup_temp])⟩

/-- The environment-determined mirror of `try_block`. -/
def pureTry (env : Env) (g : Nat) (installer : String) (d : Dir) :
    Dir × Except String Nat :=
  if g < 11 then
    if pure7z env then
      match extract_old_installer env installer with
      | (_, Except.error m) => (d, Except.error m)
      | (_, Except.ok produced) =>
        match expandCabs env
            ((produced.filter (fun c => endsWithS c ".cab")).map (waCab installer)) d with
        | (d1, _, _, some m) => (d1, Except.error m)
        | (d1, _, n, none) => (cleanup_dlls d1, Except.ok n)
    else (d, Except.error "tool provisioning failed")
  else
    if pureWix env then
      match extract_burn_bundle env installer with
      | (_, Except.error m) => (d, Except.error m)
      | (_, Except.ok wa) =>
        match expandCabs env (find_cabs env wa) d with
        | (d1, _, _, some m) => (d1, Except.error m)
        | (d1, _, n, none) => (cleanup_dlls d1, Except.ok n)
    else (d, Except.error "tool provisioning failed")

/-- The environment-determined mirror of `process_runtime` when the output
directory is not yet populated: the escaping exception / outcome, and the
contents the output directory is left with (`none` when the run returns
before `mkdir`). -/
def pureProcess (env : Env) (inc : Bool) (rt : Runtime) :
    Except String Outcome × Option Dir :=
  match majorOf rt.version with
  | none => (Except.error "invalid version", none)
  | some g =>
    if inc = false ∧ g < 14 then (Except.ok Outcome.skippedOld, none)
    else if succFetch env rt.url = false then (Except.error "download failed", some [])
    else if g = 10 then (Except.ok Outcome.skippedUnsupported, some [])
    else
      match pureTry env g (installerName rt) [] with
      | (d1, Except.ok n) => (Except.ok (Outcome.done n), some d1)
      | (d1, Except.error m) => (Except.ok (Outcome.failed m), some d1)

/-- Effect of one non-populated `process_runtime` run on the output
directories: untouched, or ensured-then-overwritten at the runtime's key. -/
def effectDirs (l : List (String × Dir)) (k : String) :
    Option Dir → List (String × Dir)
  | none => l
  | some d => dirSet (dirEnsure l k) k d

theorem dirEnsure_of_isSome (l : List (String × Dir)) (k : String)
    (h : (dirLookup l k).isSome = true) : dirEnsure l k = l := by
  induction l with
  | nil => simp [dirLookup] at h
  | cons p rest ih =>
    obtain ⟨k0, d0⟩ := p
    by_cases h0 : k0 = k
    · simp [dirEnsure, h0]
    · simp [dirLookup, h0] at h
      simp [dirEnsure, h0, ih h]

theorem effectDirs_noop (l : List (String × Dir)) (k : String)
    (h : dirLookup l k = some []) : effectDirs l k (some []) = l := by
  unfold effectDirs
  rw [dirEnsure_of_isSome l k (by simp [h])]
  exact dirSet_lookup_eq l k [] h

theorem effectDirs_some_of_unpop (l : List (String × Dir)) (k : String)
    (hpop : dirPopulated l k = false) : effectDirs l k (some []) = dirEnsure l k := by
  unfold effectDirs
  apply dirSet_lookup_eq
  rw [dirLookup_dirEnsure_self]
  rcases dirPopulated_false_cases l k hpop with h | h
  · simp [h]
  · simp [h]

theorem dirLookup_effectDirs_ne (l : List (String × Dir)) (k k' : String)
    (e : Option Dir) (h : k' ≠ k) :
    dirLookup (effectDirs l k e) k' = dirLookup l k' := by
  cases e
  · rfl
  · unfold effectDirs
    rw [dirLookup_dirSet_ne _ _ _ _ h, dirLookup_dirEnsure_ne _ _ _ h]

theorem dirLookup_effectDirs_self (l : List (String × Dir)) (k : String) (d : Dir) :
    dirLookup (effectDirs l k (some d)) k = some d := by
  unfold effectDirs
  rw [dirLookup_dirSet_self, dirLookup_dirEnsure_self]
  rfl

/-- Under `GoodFS`, the success of `fetch_7zip` is the environment-pure
`pure7z`, the invariant is preserved, and nothing outside the `core/7zip`
flags changes. -/
theorem fetch_7zip_uniform (env : Env) (args : Args) (rts : List Runtime)
    (fs : FS) (hG : GoodFS env rts fs) :
    (fetch_7zip env args fs).2.2 = pure7z env ∧
    GoodFS env rts (fetch_7zip env args fs).1 ∧
    (fetch_7zip env args fs).1.outputDirs = fs.outputDirs ∧
    (fetch_7zip env args fs).1.downloads = fs.downloads ∧
    (fetch_7zip env args fs).1.darkExe = fs.darkExe := by
  obtain ⟨h1, h2, h3, h4, h5⟩ := hG
  unfold fetch_7zip pure7z download_file
  cases hz : fs.sevenZr <;> cases hx : fs.sevenZExtra <;> cases ha : fs.sevenZa <;>
    cases hfr : succFetch env url7zr <;> cases hfx : succFetch env url7zExtra <;>
    cases hun : env.sevenZrUnpackOk <;>
    refine ⟨?_, ⟨?_, ?_, ?_, ?_, ?_⟩, ?_, ?_, ?_⟩ <;> simp_all

/-- Under `GoodFS`, the success of `fetch_wix` is the environment-pure
`pureWix`, the invariant is preserved, and nothing outside the `dark.exe`
flag changes. -/
theorem fetch_wix_uniform (env : Env) (args : Args) (rts : List Runtime)
    (fs : FS) (hG : GoodFS env rts fs) :
    (fetch_wix env args fs).2.2 = pureWix env ∧
    GoodFS env rts (fetch_wix env args fs).1 ∧
    (fetch_wix env args fs).1.outputDirs = fs.outputDirs ∧
    (fetch_wix env args fs).1.downloads = fs.downloads := by
  obtain ⟨h1, h2, h3, h4, h5⟩ := hG
  unfold fetch_wix pureWix download_file
  cases hd : fs.darkExe <;>
    cases hfw : succFetch env urlWix <;> cases hwz : env.wixZipOk <;>
    refine ⟨?_, ⟨?_, ?_, ?_, ?_, ?_⟩, ?_, ?_⟩ <;> simp_all

/-- Under `GoodFS`, `try_block` computes the environment-pure `pureTry` on
the given directory contents, preserves the invariant, and touches neither
the output directories nor the download cache. -/
theorem try_block_uniform (env : Env) (args : Args) (rts : List Runtime)
    (g : Nat) (installer : String) (fs : FS) (d : Dir)
    (hG : GoodFS env rts fs) :
    (try_block env args g installer fs d).2.1 = (pureTry env g installer d).1 ∧
    (try_block env args g installer fs d).2.2.2 = (pureTry env g installer d).2 ∧
    GoodFS env rts (try_block env args g installer fs d).1 ∧
    (try_block env args g installer fs d).1.outputDirs = fs.outputDirs ∧
    (try_block env args g installer fs d).1.downloads = fs.downloads := by
  unfold try_block pureTry
  by_cases hg11 : g < 11
  · simp only [hg11, if_true]
    rcases h7f : fetch_7zip env args fs with ⟨fs1, t1, ok1⟩
    have hu := fetch_7zip_uniform env args rts fs hG
    rw [h7f] at hu
    simp only at hu
    obtain ⟨hok, hGood1, hout1, hdl1, _⟩ := hu
    subst hok
    by_cases h7 : pure7z env = true
    · simp only [h7, if_true]
      rcases hei : extract_old_installer env installer with ⟨t2, r2⟩
      cases r2 with
      | error m => exact ⟨rfl, rfl, hGood1, hout1, hdl1⟩
      | ok produced =>
        dsimp only
        rcases hec : expandCabs env
            ((produced.filter (fun c => endsWithS c ".cab")).map (waCab installer)) d
          with ⟨d1, truns, n, err⟩
        cases err with
        | none => exact ⟨rfl, rfl, hGood1, hout1, hdl1⟩
        | some m => exact ⟨rfl, rfl, hGood1, hout1, hdl1⟩
    · simp only [h7, if_false]
      exact ⟨rfl, rfl, hGood1, hout1, hdl1⟩
  · simp only [hg11, if_false]
    rcases hwf : fetch_wix env args fs with ⟨fs1, t1, ok1⟩
    have hu := fetch_wix_uniform env args rts fs hG
    rw [hwf] at hu
    simp only at hu
    obtain ⟨hok, hGood1, hout1, hdl1⟩ := hu
    subst hok
    by_cases hw : pureWix env = true
    · simp only [hw, if_true]
      rcases hei : extract_burn_bundle env installer with ⟨t2, r2⟩
      cases r2 with
      | error m => exact ⟨rfl, rfl, hGood1, hout1, hdl1⟩
      | ok wa =>
        dsimp only
        rcases hec : expandCabs env (find_cabs env wa) d with ⟨d1, truns, n, err⟩
        cases err with
        | none => exact ⟨rfl, rfl, hGood1, hout1, hdl1⟩
        | some m => exact ⟨rfl, rfl, hGood1, hout1, hdl1⟩
    · simp only [hw, if_false]
      exact ⟨rfl, rfl, hGood1, hout1, hdl1⟩

/-- Uncached installer whose fetch fails after all retries: the exception
escapes `process_runtime` after the output directory was created. -/
theorem process_runtime_dlfail (env : Env) (args : Args) (inc : Bool)
    (rt : Runtime) (fs : FS) (g : Nat)
    (hg : majorOf rt.version = some g) (hgate : ¬(inc = false ∧ g < 14))
    (hpop : dirPopulated fs.outputDirs (outDirName rt.version) = false)
    (hmem : installerName rt ∉ fs.downloads)
    (hfetch : succFetch env rt.url = false) :
    process_runtime env args inc rt fs
      = ({ fs with outputDirs := dirEnsure fs.outputDirs (outDirName rt.version) },
         ⟨if args.silent then [] else ["Downloading " ++ rt.url], [rt.url], 0⟩,
         Except.error "download failed") := by
  unfold process_runtime
  rw [hg]
  dsimp only
  rw [if_neg hgate]
  rw [if_neg (by simp [hpop] : ¬ dirPopulated fs.outputDirs (outDirName rt.version) = true)]
  simp [download_file, hmem, hfetch]

/-- The uniform-run theorem: from any `GoodFS` state whose output directory
for the descriptor is not populated, `process_runtime` produces the
environment-determined result and directory effect of `pureProcess`, and
preserves the invariant. -/
theorem process_runtime_pure (env : Env) (args : Args) (inc : Bool)
    (rt : Runtime) (fs : FS) (rts : List Runtime)
    (hG : GoodFS env rts fs) (hmem : rt ∈ rts) (hinj : InjInstaller rts)
    (hpop : dirPopulated fs.outputDirs (outDirName rt.version) = false) :
    (process_runtime env args inc rt fs).2.2 = (pureProcess env inc rt).1 ∧
    (process_runtime env args inc rt fs).1.outputDirs
      = effectDirs fs.outputDirs (outDirName rt.version) (pureProcess env inc rt).2 ∧
    GoodFS env rts (process_runtime env args inc rt fs).1 := by
  have hcache : installerName rt ∈ fs.downloads → succFetch env rt.url = true := by
    intro hin
    obtain ⟨rt', hrt', heq, hfe⟩ := hG.hdl _ hin
    have he : rt = rt' := hinj rt hmem rt' hrt' heq
    rw [he]
    exact hfe
  unfold pureProcess
  cases hgv : majorOf rt.version with
  | none =>
    rw [process_runtime_parse_fail env args inc rt fs hgv]
    exact ⟨rfl, rfl, hG⟩
  | some g =>
    by_cases hgate : inc = false ∧ g < 14
    · obtain ⟨hinc, hlt⟩ := hgate
      subst hinc
      rw [process_runtime_skippedOld env args rt fs g hgv hlt]
      exact ⟨by simp [hlt], by simp [hlt, effectDirs], hG⟩
    · by_cases hfetch : succFetch env rt.url = true
      · by_cases h10 : g = 10
        · subst h10
          have hinc : inc = true := by
            cases inc
            · exact absurd ⟨rfl, by omega⟩ hgate
            · rfl
          subst hinc
          by_cases hm : installerName rt ∈ fs.downloads
          · rw [process_runtime_gen10_cached env args rt fs hgv hpop hm]
            refine ⟨by simp [hgate, hfetch], ?_, ?_⟩
            · simp only [hgate, if_neg, hfetch]
              simp
              rw [effectDirs_some_of_unpop _ _ hpop]
            · exact ⟨hG.h7zr, hG.h7zx, hG.h7za, hG.hdark, hG.hdl⟩
          · rw [process_runtime_gen10_uncached env args rt fs hgv hpop hm hfetch]
            refine ⟨by simp [hgate, hfetch], ?_, ?_⟩
            · simp only [hgate, if_neg, hfetch]
              simp
              rw [effectDirs_some_of_unpop _ _ hpop]
            · refine ⟨hG.h7zr, hG.h7zx, hG.h7za, hG.hdark, ?_⟩
              intro f hf
              rcases List.mem_cons.mp hf with h | h
              · exact ⟨rt, hmem, h, hfetch⟩
              · exact hG.hdl f h
        · rw [process_runtime_try env args inc rt fs g hgv hgate hpop h10 hfetch]
          have hG2 : GoodFS env rts
              ({ fs with
                 outputDirs := dirEnsure fs.outputDirs (outDirName rt.version),
                 downloads := if installerName rt ∈ fs.downloads then fs.downloads
                              else installerName rt :: fs.downloads }) := by
            refine ⟨hG.h7zr, hG.h7zx, hG.h7za, hG.hdark, ?_⟩
            intro f hf
            by_cases hm : installerName rt ∈ fs.downloads
            · simp only [hm, if_true] at hf
              exact hG.hdl f hf
            · simp only [hm, if_false] at hf
              rcases List.mem_cons.mp hf with h | h
              · exact ⟨rt, hmem, h, hfetch⟩
              · exact hG.hdl f h
          have htu := try_block_uniform env args rts g (installerName rt)
              ({ fs with
                 outputDirs := dirEnsure fs.outputDirs (outDirName rt.version),
                 downloads := if installerName rt ∈ fs.downloads then fs.downloads
                              else installerName rt :: fs.downloads }) [] hG2
          rcases htb : try_block env args g (installerName rt)
              ({ fs with
                 outputDirs := dirEnsure fs.outputDirs (outDirName rt.version),
                 downloads := if installerName rt ∈ fs.downloads then fs.downloads
                              else installerName rt :: fs.downloads }) []
            with ⟨fs3, d1, ttry, rtry⟩
          rw [htb] at htu
          simp only at htu
          obtain ⟨hd1, hr, hGood3, hout3, hdl3⟩ := htu
          rcases hpt : pureTry env g (installerName rt) [] with ⟨pd, pr⟩
          rw [hpt] at hd1 hr
          simp only at hd1 hr
          subst hd1
          subst hr
          cases rtry with
          | ok n =>
            refine ⟨by simp [hgate, hfetch, h10, hpt], ?_, ?_⟩
            · simp only [hgate, hfetch, h10, hpt, effectDirs]
              simp
              rw [hout3]
            · exact ⟨hGood3.h7zr, hGood3.h7zx, hGood3.h7za, hGood3.hdark, hGood3.hdl⟩
          | error m =>
            refine ⟨by simp [hgate, hfetch, h10, hpt], ?_, ?_⟩
            · simp only [hgate, hfetch, h10, hpt, effectDirs]
              simp
              rw [hout3]
            · exact ⟨hGood3.h7zr, hGood3.h7zx, hGood3.h7za, hGood3.hdark, hGood3.hdl⟩
      · have hfetch' : succFetch env rt.url = false := by
          cases hsf : succFetch env rt.url
          · rfl
          · exact absurd hsf hfetch
        have hm : installerName rt ∉ fs.downloads := by
          intro hin
          exact absurd (hcache hin) hfetch
        rw [process_runtime_dlfail env args inc rt fs g hgv hgate hpop hm hfetch']
        refine ⟨by simp [hgate, hfetch'], ?_, ?_⟩
        · simp only [hgate, hfetch']
          simp
          rw [effectDirs_some_of_unpop _ _ hpop]
        · exact ⟨hG.h7zr, hG.h7zx, hG.h7za, hG.hdark, hG.hdl⟩

/-- One `process_runtime` call preserves `GoodFS`, keeps populated output
directories populated, and never deletes an output directory. -/
theorem process_runtime_good (env : Env) (args : Args) (inc : Bool)
    (rt : Runtime) (fs : FS) (rts : List Runtime)
    (hG : GoodFS env rts fs) (hmem : rt ∈ rts) (hinj : InjInstaller rts) :
    GoodFS env rts (process_runtime env args inc rt fs).1 ∧
    (∀ k, dirPopulated fs.outputDirs k = true →
      dirPopulated (process_runtime env args inc rt fs).1.outputDirs k = true) ∧
    (∀ k, (dirLookup fs.outputDirs k).isSome = true →
      (dirLookup (process_runtime env args inc rt fs).1.outputDirs k).isSome = true) := by
  cases hgv : majorOf rt.version with
  | none =>
    rw [process_runtime_parse_fail env args inc rt fs hgv]
    exact ⟨hG, fun k h => h, fun k h => h⟩
  | some g =>
    by_cases hgate : inc = false ∧ g < 14
    · obtain ⟨hinc, hlt⟩ := hgate
      subst hinc
      rw [process_runtime_skippedOld env args rt fs g hgv hlt]
      exact ⟨hG, fun k h => h, fun k h => h⟩
    · by_cases hpop : dirPopulated fs.outputDirs (outDirName rt.version) = true
      · rw [process_runtime_skippedAlready env args inc rt fs g hgv hgate hpop]
        exact ⟨hG, fun k h => h, fun k h => h⟩
      · have hpop' : dirPopulated fs.outputDirs (outDirName rt.version) = false := by
          cases h : dirPopulated fs.outputDirs (outDirName rt.version)
          · rfl
          · exact absurd h hpop
        obtain ⟨_, hout, hGood⟩ :=
          process_runtime_pure env args inc rt fs rts hG hmem hinj hpop'
        refine ⟨hGood, ?_, ?_⟩
        · intro k hk
          rw [hout]
          by_cases hkd : k = outDirName rt.version
          · subst hkd
            rw [hk] at hpop'
            cases hpop'
          · unfold dirPopulated at hk ⊢
            rw [dirLookup_effectDirs_ne _ _ _ _ hkd]
            exact hk
        · intro k hk
          rw [hout]
          by_cases hkd : k = outDirName rt.version
          · subst hkd
            cases heff : (pureProcess env inc rt).2 with
            | none => exact hk
            | some d =>
              rw [dirLookup_effectDirs_self]
              rfl
          · rw [dirLookup_effectDirs_ne _ _ _ _ hkd]
            exact hk

/-- `runBatch` preserves `GoodFS` and the populated/presence state of every
output directory. -/
theorem runBatch_good (env : Env) (args : Args) (inc : Bool)
    (rts : List Runtime) (hinj : InjInstaller rts) (l : List Runtime) :
    ∀ fs, GoodFS env rts fs → (∀ rt ∈ l, rt ∈ rts) →
    GoodFS env rts (runBatch env args inc l fs).1 ∧
    (∀ k, dirPopulated fs.outputDirs k = true →
      dirPopulated (runBatch env args inc l fs).1.outputDirs k = true) ∧
    (∀ k, (dirLookup fs.outputDirs k).isSome = true →
      (dirLookup (runBatch env args inc l fs).1.outputDirs k).isSome = true) := by
  induction l with
  | nil =>
    intro fs hG _
    exact ⟨hG, fun k h => h, fun k h => h⟩
  | cons rt rest ih =>
    intro fs hG hsub
    obtain ⟨hg1, hp1, hs1⟩ :=
      process_runtime_good env args inc rt fs rts hG (hsub rt (by simp)) hinj
    unfold runBatch
    rcases hpr : process_runtime env args inc rt fs with ⟨fs1, tr, r⟩
    rw [hpr] at hg1 hp1 hs1
    simp only at hg1 hp1 hs1
    cases r with
    | error m => exact ⟨hg1, hp1, hs1⟩
    | ok o =>
      dsimp only
      rcases hrb : runBatch env args inc rest fs1 with ⟨fs2, res, ab⟩
      obtain ⟨hg2, hp2, hs2⟩ := ih fs1 hg1 (fun x hx => hsub x (by simp [hx]))
      rw [hrb] at hg2 hp2 hs2
      simp only at hg2 hp2 hs2
      exact ⟨hg2, fun k hk => hp2 k (hp1 k hk), fun k hk => hs2 k (hs1 k hk)⟩

/-- Head-step equations for `runBatch`. -/
theorem runBatch_cons_ok (env : Env) (args : Args) (inc : Bool)
    (rt : Runtime) (rest : List Runtime) (fs fs1 : FS) (tr : Trace) (o : Outcome)
    (h : process_runtime env args inc rt fs = (fs1, tr, Except.ok o)) :
    runBatch env args inc (rt :: rest) fs
      = ((runBatch env args inc rest fs1).1,
         (rt.version, tr, o) :: (runBatch env args inc rest fs1).2.1,
         (runBatch env args inc rest fs1).2.2) := by
  conv_lhs => rw [runBatch]
  dsimp only
  rw [h]

theorem runBatch_cons_err (env : Env) (args : Args) (inc : Bool)
    (rt : Runtime) (rest : List Runtime) (fs fs1 : FS) (tr : Trace) (m : String)
    (h : process_runtime env args inc rt fs = (fs1, tr, Except.error m)) :
    runBatch env args inc (rt :: rest) fs = (fs1, [], some m) := by
  unfold runBatch
  rw [h]

/-- When `pureProcess` yields an escaping error on a parseable version, it is
the download failure, whose directory effect is the freshly created empty
output directory. -/
theorem pureProcess_error_effect (env : Env) (inc : Bool) (rt : Runtime)
    (g : Nat) (m : String) (hgv : majorOf rt.version = some g)
    (h : (pureProcess env inc rt).1 = Except.error m) :
    (pureProcess env inc rt).2 = some [] := by
  unfold pureProcess at h ⊢
  rw [hgv] at h ⊢
  dsimp only at h ⊢
  by_cases hgate : inc = false ∧ g < 14
  · rw [if_pos hgate] at h
    simp at h
  · rw [if_neg hgate] at h ⊢
    by_cases hdl : succFetch env rt.url = false
    · rw [if_pos hdl]
    · rw [if_neg hdl] at h ⊢
      by_cases h10 : g = 10
      · rw [if_pos h10] at h
        simp at h
      · rw [if_neg h10] at h ⊢
        rcases hpt : pureTry env g (installerName rt) [] with ⟨pd, pr⟩
        rw [hpt] at h
        cases pr
        · simp at h
        · simp at h

theorem dirPopulated_of_lookup_nil (l : List (String × Dir)) (k : String)
    (h : dirLookup l k = some []) : dirPopulated l k = false := by
  unfold dirPopulated
  rw [h]
  rfl

/-- The rerun theorem for the batch loop: starting a second batch from any
`GoodFS` state whose output directories are exactly those left by a first
batch run (itself started from a `GoodFS` state), the second run changes no
output directory, and every descriptor whose directory is populated is
dispatched with zero spawned processes and zero network fetches. -/
theorem runBatch_rerun (env : Env) (args : Args) (inc : Bool)
    (rts : List Runtime) (hinj : InjInstaller rts) (l : List Runtime) :
    ∀ s1 s2 : FS, GoodFS env rts s1 → GoodFS env rts s2 →
    (∀ rt ∈ l, rt ∈ rts) →
    s2.outputDirs = (runBatch env args inc l s1).1.outputDirs →
    (runBatch env args inc l s2).1.outputDirs = s2.outputDirs ∧
    (∀ e ∈ (runBatch env args inc l s2).2.1,
      dirPopulated s2.outputDirs (outDirName e.1) = true →
      e.2.1.toolRuns = 0 ∧ e.2.1.fetches = []) := by
  induction l with
  | nil =>
    intro s1 s2 _ _ _ _
    refine ⟨rfl, ?_⟩
    intro e he
    exact absurd he (List.not_mem_nil e)
  | cons rt rest ih =>
    intro s1 s2 hG1 hG2 hsub hout
    have hsubr : ∀ x ∈ rest, x ∈ rts := fun x hx => hsub x (List.mem_cons_of_mem rt hx)
    have hmem : rt ∈ rts := hsub rt (List.mem_cons_self rt rest)
    cases hgv : majorOf rt.version with
    | none =>
      have h2 := process_runtime_parse_fail env args inc rt s2 hgv
      rw [runBatch_cons_err env args inc rt rest s2 s2 Trace.nil "invalid version" h2]
      refine ⟨rfl, ?_⟩
      intro e he
      exact absurd he (List.not_mem_nil e)
    | some g =>
      by_cases hgate : inc = false ∧ g < 14
      · obtain ⟨hinc, hlt⟩ := hgate
        subst hinc
        have h1 := process_runtime_skippedOld env args rt s1 g hgv hlt
        have h2 := process_runtime_skippedOld env args rt s2 g hgv hlt
        rw [runBatch_cons_ok env args false rt rest s1 s1 Trace.nil Outcome.skippedOld h1]
          at hout
        dsimp only at hout
        rw [runBatch_cons_ok env args false rt rest s2 s2 Trace.nil Outcome.skippedOld h2]
        dsimp only
        obtain ⟨ha, hb⟩ := ih s1 s2 hG1 hG2 hsubr hout
        refine ⟨ha, ?_⟩
        intro e he hp
        rcases List.mem_cons.mp he with rfl | he'
        · exact ⟨rfl, rfl⟩
        · exact hb e he' hp
      · by_cases hpop1 : dirPopulated s1.outputDirs (outDirName rt.version) = true
        · have h1 := process_runtime_skippedAlready env args inc rt s1 g hgv hgate hpop1
          rw [runBatch_cons_ok env args inc rt rest s1 s1 _ _ h1] at hout
          dsimp only at hout
          obtain ⟨_, hpm, _⟩ := runBatch_good env args inc rts hinj rest s1 hG1 hsubr
          have hpop2 : dirPopulated s2.outputDirs (outDirName rt.version) = true := by
            rw [hout]
            exact hpm _ hpop1
          have h2 := process_runtime_skippedAlready env args inc rt s2 g hgv hgate hpop2
          rw [runBatch_cons_ok env args inc rt rest s2 s2 _ _ h2]
          dsimp only
          obtain ⟨ha, hb⟩ := ih s1 s2 hG1 hG2 hsubr hout
          refine ⟨ha, ?_⟩
          intro e he hp
          rcases List.mem_cons.mp he with rfl | he'
          · exact ⟨rfl, rfl⟩
          · exact hb e he' hp
        · have hpop1' : dirPopulated s1.outputDirs (outDirName rt.version) = false := by
            cases hq : dirPopulated s1.outputDirs (outDirName rt.version)
            · rfl
            · exact absurd hq hpop1
          obtain ⟨hr1, hout1, hGood1a⟩ :=
            process_runtime_pure env args inc rt s1 rts hG1 hmem hinj hpop1'
          rcases hpr1 : process_runtime env args inc rt s1 with ⟨s1a, tr1, r1⟩
          rw [hpr1] at hr1 hout1 hGood1a
          simp only at hr1 hout1 hGood1a
          cases r1 with
          | error m =>
            have heff := pureProcess_error_effect env inc rt g m hgv hr1.symm
            rw [runBatch_cons_err env args inc rt rest s1 s1a tr1 m hpr1] at hout
            dsimp only at hout
            have hlook2 : dirLookup s2.outputDirs (outDirName rt.version) = some [] := by
              rw [hout, hout1, heff]
              exact dirLookup_effectDirs_self _ _ _
            have hpop2' : dirPopulated s2.outputDirs (outDirName rt.version) = false :=
              dirPopulated_of_lookup_nil _ _ hlook2
            obtain ⟨hr2, hout2, _⟩ :=
              process_runtime_pure env args inc rt s2 rts hG2 hmem hinj hpop2'
            rcases hpr2 : process_runtime env args inc rt s2 with ⟨s2a, tr2, r2⟩
            rw [hpr2] at hr2 hout2
            simp only at hr2 hout2
            rw [← hr1] at hr2
            subst hr2
            rw [runBatch_cons_err env args inc rt rest s2 s2a tr2 m hpr2]
            refine ⟨?_, ?_⟩
            · show s2a.outputDirs = s2.outputDirs
              rw [hout2, heff]
              exact effectDirs_noop _ _ hlook2
            · intro e he
              exact absurd he (List.not_mem_nil e)
          | ok o =>
            rw [runBatch_cons_ok env args inc rt rest s1 s1a tr1 o hpr1] at hout
            dsimp only at hout
            by_cases hpop2 : dirPopulated s2.outputDirs (outDirName rt.version) = true
            · have h2 := process_runtime_skippedAlready env args inc rt s2 g hgv hgate hpop2
              rw [runBatch_cons_ok env args inc rt rest s2 s2 _ _ h2]
              dsimp only
              obtain ⟨ha, hb⟩ := ih s1a s2 hGood1a hG2 hsubr hout
              refine ⟨ha, ?_⟩
              intro e he hp
              rcases List.mem_cons.mp he with rfl | he'
              · exact ⟨rfl, rfl⟩
              · exact hb e he' hp
            · have hpop2' : dirPopulated s2.outputDirs (outDirName rt.version) = false := by
                cases hq : dirPopulated s2.outputDirs (outDirName rt.version)
                · rfl
                · exact absurd hq hpop2
              obtain ⟨hgood1b, hpm1, hsm1⟩ :=
                runBatch_good env args inc rts hinj rest s1a hGood1a hsubr
              have heffnoop : effectDirs s2.outputDirs (outDirName rt.version)
                  (pureProcess env inc rt).2 = s2.outputDirs := by
                cases heff : (pureProcess env inc rt).2 with
                | none => rfl
                | some d =>
                  have hlook1 : dirLookup s1a.outputDirs (outDirName rt.version) = some d := by
                    rw [hout1, heff]
                    exact dirLookup_effectDirs_self _ _ _
                  have hd : d = [] := by
                    cases hd0 : d with
                    | nil => rfl
                    | cons f fr =>
                      have hp1 : dirPopulated s1a.outputDirs (outDirName rt.version) = true := by
                        apply dirPopulated_true_of_lookup _ _ _ hlook1
                        simp [hd0]
                      have hpf := hpm1 _ hp1
                      rw [← hout] at hpf
                      exact absurd hpf hpop2
                  subst hd
                  have hsome : (dirLookup (runBatch env args inc rest s1a).1.outputDirs
                      (outDirName rt.version)).isSome = true := by
                    apply hsm1
                    rw [hlook1]
                    rfl
                  rw [← hout] at hsome
                  have hlook2 : dirLookup s2.outputDirs (outDirName rt.version) = some [] := by
                    rcases hq : dirLookup s2.outputDirs (outDirName rt.version) with _ | w
                    · rw [hq] at hsome
                      simp at hsome
                    · cases w with
                      | nil => rfl
                      | cons f fr =>
                        have hpt := dirPopulated_true_of_lookup _ _ _ hq (by simp)
                        exact absurd hpt hpop2
                  exact effectDirs_noop _ _ hlook2
              obtain ⟨hr2, hout2, hGood2a⟩ :=
                process_runtime_pure env args inc rt s2 rts hG2 hmem hinj hpop2'
              rcases hpr2 : process_runtime env args inc rt s2 with ⟨s2a, tr2, r2⟩
              rw [hpr2] at hr2 hout2 hGood2a
              simp only at hr2 hout2 hGood2a
              rw [← hr1] at hr2
              subst hr2
              have houts2a : s2a.outputDirs = s2.outputDirs := by
                rw [hout2, heffnoop]
              rw [runBatch_cons_ok env args inc rt rest s2 s2a tr2 o hpr2]
              dsimp only
              obtain ⟨ha, hb⟩ := ih s1a s2a hGood1a hGood2a hsubr
                (by rw [houts2a, hout])
              refine ⟨?_, ?_⟩
              · rw [ha, houts2a]
              · intro e he hp
                rcases List.mem_cons.mp he with rfl | he'
                · exact absurd hp hpop2
                · refine hb e he' ?_
                  rw [houts2a]
                  exact hp

/-- With no `--version` filter, `fetch_all` is the batch loop plus an
optional download-cache cleanup that leaves the output directories and the
per-runtime observations untouched. -/
theorem fetch_all_batch (env : Env) (args : Args) (inc : Bool)
    (rts : List Runtime) (fs : FS) (hver : args.version = none) :
    (fetch_all env args inc rts fs).1.outputDirs
      = (runBatch env args inc rts fs).1.outputDirs ∧
    (fetch_all env args inc rts fs).2.1 = (runBatch env args inc rts fs).2.1 := by
  unfold fetch_all
  rw [hver]
  rcases hrb : runBatch env args inc rts fs with ⟨fs1, res, ab⟩
  cases ab with
  | some m => exact ⟨rfl, rfl⟩
  | none =>
    cases hnc : args.noCleanup
    · exact ⟨rfl, rfl⟩
    · exact ⟨rfl, rfl⟩

theorem fetch_all_good (env : Env) (args : Args) (inc : Bool)
    (rts rts' : List Runtime) (fs : FS) (hver : args.version = none)
    (hG : GoodFS env rts' (runBatch env args inc rts fs).1) :
    GoodFS env rts' (fetch_all env args inc rts fs).1 := by
  unfold fetch_all
  rw [hver]
  rcases hrb : runBatch env args inc rts fs with ⟨fs1, res, ab⟩
  rw [hrb] at hG
  simp only at hG
  cases ab with
  | some m => exact hG
  | none =>
    cases hnc : args.noCleanup
    · exact goodFS_cleanup env rts' fs1 hG
    · exact hG

/-- C4: running the full pipeline twice from a clean base state with the same
configuration (no `--version` filter; configuration with injective
download-cache names) leaves every output directory exactly as the first run
left it, and during the second run every descriptor whose output directory
is already non-empty is dispatched with zero external tool invocations and
zero network fetches. -/
theorem c4_idempotent_rerun (env : Env) (args : Args) (inc : Bool)
    (rts : List Runtime)
    (hver : args.version = none) (hinj : InjInstaller rts) :
    (fetch_all env args inc rts
        (fetch_all env args inc rts cleanFS).1).1.outputDirs
      = (fetch_all env args inc rts cleanFS).1.outputDirs ∧
    (∀ e ∈ (fetch_all env args inc rts (fetch_all env args inc rts cleanFS).1).2.1,
      dirPopulated (fetch_all env args inc rts cleanFS).1.outputDirs
        (outDirName e.1) = true →
      e.2.1.toolRuns = 0 ∧ e.2.1.fetches = []) := by
  obtain ⟨ho1, _⟩ := fetch_all_batch env args inc rts cleanFS hver
  obtain ⟨hGb, _, _⟩ := runBatch_good env args inc rts hinj rts cleanFS
    (goodFS_clean env rts) (fun x hx => hx)
  have hG2 : GoodFS env rts (fetch_all env args inc rts cleanFS).1 :=
    fetch_all_good env args inc rts rts cleanFS hver hGb
  obtain ⟨ha, hb⟩ := runBatch_rerun env args inc rts hinj rts cleanFS
    (fetch_all env args inc rts cleanFS).1 (goodFS_clean env rts) hG2
    (fun x hx => hx) ho1
  obtain ⟨ho2, hr2⟩ :=
    fetch_all_batch env args inc rts (fetch_all env args inc rts cleanFS).1 hver
  refine ⟨?_, ?_⟩
  · rw [ho2, ha]
  · intro e he hp
    rw [hr2] at he
    exact hb e he hp

theorem c4_witness :
    (fetch_all envAllOk argsLoud true [rt14]
        (fetch_all envAllOk argsLoud true [rt14] cleanFS).1).1.outputDirs
      = (fetch_all envAllOk argsLoud true [rt14] cleanFS).1.outputDirs ∧
    (∀ e ∈ (fetch_all envAllOk argsLoud true [rt14]
        (fetch_all envAllOk argsLoud true [rt14] cleanFS).1).2.1,
      dirPopulated (fetch_all envAllOk argsLoud true [rt14] cleanFS).1.outputDirs
        (outDirName e.1) = true →
      e.2.1.toolRuns = 0 ∧ e.2.1.fetches = []) :=
  c4_idempotent_rerun envAllOk argsLoud true [rt14] rfl (by
    intro a ha b hb _
    rw [List.mem_singleton] at ha hb
    rw [ha, hb])
